import Mathlib

/-!
Verification of the pyriser text-file readers.

This file gives a shallow embedding, in Lean, of the parsing code of the
repository (das_file_reader.py, dpx_reader.py, shear7_file_reader.py,
tab_file_reader.py, common_mds_reader.py, output_file_reader.py) and proves
or refutes the frozen claims about it.

Conventions of the embedding:
* A file is a list of its lines (`List String`); the trailing newline
  character of each physical line is dropped, which is immaterial because
  every access to line content in the source goes through `split`, `strip`
  or substring tests that are insensitive to it.
* Python dictionaries (which preserve insertion order) are modelled as
  association lists over a key type with decidable equality; assignment is
  `alSet` (update in place or append at the end), lookup is `alGet?`, and
  `d[k].append(x)` is `alAppend` (which fails, like Python's `KeyError`,
  when the key is absent).
* Python exceptions (KeyError, IndexError, ValueError, NameError,
  AttributeError, TypeError) are modelled by `Option`: a function returns
  `none` exactly when the Python code raises.
* Python floats are modelled by `ℚ`; the tokens occurring in the claims
  (`1.5`, `2.0`, `0.5`, ...) are exactly representable both as binary
  floats and as rationals, so the model is faithful on them.  `pyFloat?`
  recognises the plain decimal/exponent form of Python float literals
  (sign, digits, decimal point, exponent); `pyInt?` recognises Python
  `int()` input (optional sign and digits, surrounded by whitespace).
-/

/-! ## Association-list model of Python dicts -/

/-- Python dict assignment `d[k] = v`: replaces the value of an existing
key in place (keeping its position in insertion order), otherwise appends
the new binding at the end. -/
def alSet {κ α : Type} [DecidableEq κ] : List (κ × α) → κ → α → List (κ × α)
  | [], k, v => [(k, v)]
  | (k0, v0) :: d, k, v => if k0 = k then (k0, v) :: d else (k0, v0) :: alSet d k v

/-- Python dict lookup `d[k]` / membership `k in d`: first binding wins. -/
def alGet? {κ α : Type} [DecidableEq κ] : List (κ × α) → κ → Option α
  | [], _ => Option.none
  | (k0, v0) :: d, k => if k0 = k then some v0 else alGet? d k

/-- Python `d[k].append(x)` for a dict of lists: `none` models the
`KeyError` raised when `k` is not present. -/
def alAppend {κ α : Type} [DecidableEq κ] : List (κ × List α) → κ → α → Option (List (κ × List α))
  | [], _, _ => Option.none
  | (k0, vs) :: d, k, x =>
    if k0 = k then some ((k0, vs ++ [x]) :: d)
    else (alAppend d k x).map (fun d2 => (k0, vs) :: d2)

theorem alGet?_alSet_self {κ α : Type} [DecidableEq κ] (d : List (κ × α)) (k : κ) (v : α) :
    alGet? (alSet d k v) k = some v := by
  induction d with
  | nil => simp [alSet, alGet?]
  | cons p d ih =>
    obtain ⟨k0, v0⟩ := p
    by_cases h : k0 = k <;> simp [alSet, alGet?, h, ih]

theorem alGet?_alSet_ne {κ α : Type} [DecidableEq κ] (d : List (κ × α)) (k k2 : κ) (v : α)
    (h : k ≠ k2) : alGet? (alSet d k v) k2 = alGet? d k2 := by
  induction d with
  | nil => simp [alSet, alGet?, h]
  | cons p d ih =>
    obtain ⟨k0, v0⟩ := p
    by_cases h0 : k0 = k
    · subst h0
      simp [alSet, alGet?, h]
    · simp [alSet, alGet?, h0, ih]

theorem alAppend_get?_isSome {κ α : Type} [DecidableEq κ] (d : List (κ × List α)) (k : κ) (x : α) :
    (alAppend d k x).isSome = (alGet? d k).isSome := by
  induction d with
  | nil => simp [alAppend, alGet?]
  | cons p d ih =>
    obtain ⟨k0, vs⟩ := p
    by_cases h : k0 = k <;> simp [alAppend, alGet?, h, ih, Option.isSome_map]

theorem alAppend_eq_some {κ α : Type} [DecidableEq κ] (d : List (κ × List α)) (k : κ) (x : α)
    (vs : List α) (h : alGet? d k = some vs) :
    alAppend d k x = some (alSet d k (vs ++ [x])) := by
  induction d with
  | nil => simp [alGet?] at h
  | cons p d ih =>
    obtain ⟨k0, vs0⟩ := p
    by_cases h0 : k0 = k
    · subst h0
      simp [alGet?] at h
      subst h
      simp [alAppend, alSet]
    · simp [alGet?, h0] at h
      simp [alAppend, alSet, h0, ih h]

theorem alGet?_alAppend_ne {κ α : Type} [DecidableEq κ] (d d2 : List (κ × List α)) (k k2 : κ)
    (x : α) (h : alAppend d k x = some d2) (hne : k ≠ k2) : alGet? d2 k2 = alGet? d k2 := by
  induction d generalizing d2 with
  | nil => simp [alAppend] at h
  | cons p d ih =>
    obtain ⟨k0, vs0⟩ := p
    by_cases h0 : k0 = k
    · subst h0
      simp [alAppend] at h
      subst h
      by_cases h2 : k0 = k2 <;> simp [alGet?, h2]
      exact absurd h2 hne
    · simp [alAppend, h0] at h
      obtain ⟨d3, h3, h4⟩ := h
      subst h4
      by_cases h2 : k0 = k2 <;> simp [alGet?, h2, ih d3 h3]

/-! ## Python string and number primitives -/

/-- Boolean list-prefix test (mirrors Python's implicit prefix comparison). -/
def isPrefixB : List Char → List Char → Bool
  | [], _ => true
  | _ :: _, [] => false
  | a :: as, b :: bs => a == b && isPrefixB as bs

/-- Python's substring test `needle in hay`. -/
def subIn (needle : List Char) : List Char → Bool
  | [] => isPrefixB needle []
  | c :: rest => isPrefixB needle (c :: rest) || subIn needle rest

/-- `strContains n s` is Python's `n in s` on strings. -/
def strContains (needle s : String) : Bool := subIn needle.data s.data

/-- Numeric value of a list of decimal digit characters. -/
def digitsVal (ds : List Char) : Nat := ds.foldl (fun a c => a * 10 + (c.toNat - 48)) 0

/-- Strip leading whitespace from a character list. -/
def chTrimL (cs : List Char) : List Char := cs.dropWhile Char.isWhitespace

/-- Python's `str.strip()` (also used for `.rstrip()` where only line
terminators are at stake). -/
def pyTrim (s : String) : String := ⟨(chTrimL (chTrimL s.data).reverse).reverse⟩

/-- One splitting step for `chSplitOn`; the fuel is an upper bound on the
number of characters still to be consumed (each step consumes at least one
character because separators are nonempty in every use). -/
def chSplitOnAux (sep : List Char) : Nat → List Char → List Char → List (List Char)
  | 0, acc, _ => [acc.reverse]
  | _ + 1, acc, [] => [acc.reverse]
  | fuel + 1, acc, c :: cs =>
    if isPrefixB sep (c :: cs) then
      acc.reverse :: chSplitOnAux sep fuel [] ((c :: cs).drop sep.length)
    else
      chSplitOnAux sep fuel (c :: acc) cs

/-- Python's `s.split(sep)` for a nonempty literal separator `sep`. -/
def pySplit (s sep : String) : List String :=
  (chSplitOnAux sep.data (s.data.length + 1) [] s.data).map (fun cs => (⟨cs⟩ : String))

/-- Splitting on a character predicate, keeping empty pieces. -/
def chSplitPredAux (p : Char → Bool) : List Char → List Char → List (List Char)
  | acc, [] => [acc.reverse]
  | acc, c :: cs => if p c then acc.reverse :: chSplitPredAux p [] cs else chSplitPredAux p (c :: acc) cs

/-- Python's `str.split()` with no argument: split on runs of whitespace,
dropping empty pieces. -/
def pySplitWs (s : String) : List String :=
  ((chSplitPredAux Char.isWhitespace [] s.data).map (fun cs => (⟨cs⟩ : String))).filter (fun t => t ≠ "")

/-- One replacement step for `pyReplace`, fuelled like `chSplitOnAux`. -/
def chReplaceAux (old new : List Char) : Nat → List Char → List Char
  | 0, cs => cs
  | _ + 1, [] => []
  | fuel + 1, c :: cs =>
    if isPrefixB old (c :: cs) then new ++ chReplaceAux old new fuel ((c :: cs).drop old.length)
    else c :: chReplaceAux old new fuel cs

/-- Python's `s.replace(old, new)` for a nonempty `old`. -/
def pyReplace (s old new : String) : String :=
  ⟨chReplaceAux old.data new.data (s.data.length + 1) s.data⟩

/-- ASCII lower-casing of one character (all inputs in this code base are
ASCII). -/
def chLower (c : Char) : Char :=
  if 65 ≤ c.toNat ∧ c.toNat ≤ 90 then Char.ofNat (c.toNat + 32) else c

/-- Python's `str.lower()` on ASCII text. -/
def pyLower (s : String) : String := ⟨s.data.map chLower⟩

/-- Core of `float()` parsing after an optional sign: digits, optional
decimal point and fraction digits, optional exponent.  Returns `none` when
Python's `float()` would raise `ValueError`.  The value is the exact
rational `(intpart.fracpart) × 10^(±exp)`, built with `mkRat` so that it
evaluates by kernel reduction. -/
def pyFloatCore (cs : List Char) : Option ℚ :=
  let ip := cs.takeWhile Char.isDigit
  let r1 := cs.dropWhile Char.isDigit
  let fp := if r1.head? = some '.' then r1.tail.takeWhile Char.isDigit else []
  let r2 := if r1.head? = some '.' then r1.tail.dropWhile Char.isDigit else r1
  if ip.isEmpty && fp.isEmpty then Option.none
  else
    let mn : ℤ := ((digitsVal ip * 10 ^ fp.length + digitsVal fp : ℕ) : ℤ)
    let md : ℕ := 10 ^ fp.length
    match r2 with
    | [] => some (mkRat mn md)
    | c :: r3 =>
      if c = 'e' ∨ c = 'E' then
        let sgnNeg : Bool := r3.head? = some '-'
        let r4 := if r3.head? = some '-' ∨ r3.head? = some '+' then r3.tail else r3
        let ed := r4.takeWhile Char.isDigit
        let r5 := r4.dropWhile Char.isDigit
        if ed.isEmpty || !r5.isEmpty then Option.none
        else some (if sgnNeg then mkRat mn (md * 10 ^ digitsVal ed)
                   else mkRat (mn * 10 ^ digitsVal ed) md)
      else Option.none

/-- Addition on `ℚ`, written with `mkRat` so that it evaluates by kernel
reduction; `qAdd_eq_add` shows it is ordinary addition. -/
def qAdd (a b : ℚ) : ℚ := mkRat (a.num * (b.den : ℤ) + b.num * (a.den : ℤ)) (a.den * b.den)

theorem qAdd_eq_add (a b : ℚ) : qAdd a b = a + b := by
  rw [qAdd, Rat.add_def, Rat.normalize_eq_mkRat]

/-- Python's `float(s)`, modelled over `ℚ` on the decimal/exponent literal
forms (`inf`, `nan` and underscore separators are not modelled; they do not
occur in any claim). `none` models `ValueError`. -/
def pyFloat? (s : String) : Option ℚ :=
  match (pyTrim s).data with
  | [] => Option.none
  | c :: r =>
    if c = '-' then (pyFloatCore r).map (fun q => -q)
    else if c = '+' then pyFloatCore r
    else pyFloatCore (c :: r)

/-- Python's `int(s)`: optional sign and decimal digits, surrounded by
optional whitespace.  `none` models `ValueError`. -/
def pyInt? (s : String) : Option ℤ :=
  match (pyTrim s).data with
  | [] => Option.none
  | c :: r =>
    let sgnNeg : Bool := c = '-'
    let ds := if c = '-' ∨ c = '+' then r else c :: r
    if ds.isEmpty || !(ds.all Char.isDigit) then Option.none
    else some (if sgnNeg then -(digitsVal ds : ℤ) else (digitsVal ds : ℤ))

example : pyFloat? "1.5" = some (mkRat 3 2) := by decide
example : pyFloat? " 100.0" = some 100 := by decide
example : pyFloat? "2e1" = some 20 := by decide
example : pyFloat? "-0.5" = some (mkRat (-1) 2) := by decide
example : pyFloat? "abc" = Option.none := by decide
example : pyFloat? "" = Option.none := by decide
example : pyFloat? "Plot Data:" = Option.none := by decide
example : pyInt? "2" = some 2 := by decide
example : pyInt? " -13 " = some (-13) := by decide
example : pyInt? "2.0" = Option.none := by decide
example : pySplitWs "1 0.0  1.0" = ["1", "0.0", "1.0"] := by decide
example : strContains "***" "*** BLOCK 3 ***" = true := by decide
example : strContains "TYPE=" "ab" = false := by decide
example : pySplit "TYPE=FOO" "=" = ["TYPE", "FOO"] := by decide
example : pySplit "a,,b" "," = ["a", "", "b"] := by decide
example : pySplit "a," "," = ["a", ""] := by decide
example : pySplit "*** BLOCK 3 ***" "***" = ["", " BLOCK 3 ", ""] := by decide
example : pyReplace "GEN=1,5" "GEN=" "" = "1,5" := by decide
example : pyTrim "  a b\t" = "a b" := by decide
example : pyLower "Successful DeepRiser Analysis" = "successful deepriser analysis" := by decide

/-! ## das_file_reader.py — `DasFile.parse_das_file_data`

The parser state mirrors the instance variables set up in
`DasFile.setup_variables` that `parse_das_file_data` touches.  Python's
`self.models` / `self.load_cases` are dicts with the consecutive integer
keys `1 .. no_models` / `1 .. no_load_cases`; they are modelled as lists
where list index `i` carries Python key `i + 1`.  A star section maps the
star-header line to the data lines that followed it. -/

/-- The star sections of one `$`-section: star-header line ↦ data lines. -/
abbrev Model : Type := List (String × List String)

/-- State of `DasFile.parse_das_file_data`. -/
structure DasState where
  dollarSection : String
  starSection : String
  noModels : Nat
  models : List Model
  noLoadCases : Nat
  loadCases : List Model
  dasData : List (String × Model)
deriving DecidableEq

/-- The state on entry to the loop: `dollar_section = star_section =
'headers'` and `das_data = {'headers': {'headers': []}}`. -/
def dasInit : DasState :=
  { dollarSection := "headers", starSection := "headers", noModels := 0, models := [],
    noLoadCases := 0, loadCases := [], dasData := [("headers", [("headers", [])])] }

/-- `line[0] == '$'` for the (nonempty) line. -/
def isDollar (l : String) : Bool := l.data.head? = some '$'

/-- `line[0] == '*'` for the (nonempty) line. -/
def isStar (l : String) : Bool := l.data.head? = some '*'

/-- Update the last entry of a list with a fallible function; `none` both
when the list is empty (Python `KeyError` on `self.models[self.no_models]`
with no model open) and when `f` fails. -/
def modifyLast {α : Type} (f : α → Option α) : List α → Option (List α)
  | [] => Option.none
  | [a] => (f a).map (fun x => [x])
  | a :: b :: l => (modifyLast f (b :: l)).map (fun l2 => a :: l2)

/-- The `line[0] == '$'` branch of the loop body: record the new dollar
section; a `$MODEL` marker opens a fresh numbered model, a `$LOAD CASE`
marker opens a fresh numbered load case, and every dollar marker other
than `$LOAD CASE` (including `$MODEL`) also resets `das_data[line]` to an
empty dict. -/
def dasStepDollar (st : DasState) (line : String) : DasState :=
  let st1 := { st with dollarSection := line }
  let st2 := if line = "$MODEL"
             then { st1 with noModels := st1.noModels + 1, models := st1.models ++ [([] : Model)] }
             else st1
  if line = "$LOAD CASE" then
    { st2 with noLoadCases := st2.noLoadCases + 1, loadCases := st2.loadCases ++ [([] : Model)] }
  else
    { st2 with dasData := alSet st2.dasData line ([] : Model) }

/-- The `line[0] == '*'` branch: record the new star section and create an
empty entry for it in the currently open model / load case / dollar
section. -/
def dasStepStar (st : DasState) (line : String) : Option DasState :=
  if st.dollarSection = "$MODEL" then
    (modifyLast (fun m => some (alSet m line ([] : List String))) st.models).map
      (fun ms => { st with starSection := line, models := ms })
  else if st.dollarSection = "$LOAD CASE" then
    (modifyLast (fun m => some (alSet m line ([] : List String))) st.loadCases).map
      (fun ms => { st with starSection := line, loadCases := ms })
  else
    match alGet? st.dasData st.dollarSection with
    | Option.none => Option.none
    | some m => some { st with starSection := line,
                               dasData := alSet st.dasData st.dollarSection (alSet m line ([] : List String)) }

/-- The data-line branch: append the line to the current star section of
the currently open model / load case / dollar section (`none` models the
`KeyError` when that star section does not exist there). -/
def dasStepData (st : DasState) (line : String) : Option DasState :=
  if st.dollarSection = "$MODEL" then
    (modifyLast (fun m => alAppend m st.starSection line) st.models).map
      (fun ms => { st with models := ms })
  else if st.dollarSection = "$LOAD CASE" then
    (modifyLast (fun m => alAppend m st.starSection line) st.loadCases).map
      (fun ms => { st with loadCases := ms })
  else
    match alGet? st.dasData st.dollarSection with
    | Option.none => Option.none
    | some m =>
      match alAppend m st.starSection line with
      | Option.none => Option.none
      | some m2 => some { st with dasData := alSet st.dasData st.dollarSection m2 }

/-- One iteration of the loop in `parse_das_file_data`.  `none` on the
empty line models the `IndexError` of `line[0]` (`read_das_file` never
stores empty lines, so this is unreachable on real inputs). -/
def dasStep (st : DasState) (line : String) : Option DasState :=
  if line.data.isEmpty then Option.none
  else if isDollar line then some (dasStepDollar st line)
  else if isStar line then dasStepStar st line
  else dasStepData st line

/-- The loop of `parse_das_file_data` over the remaining lines. -/
def dasRun : DasState → List String → Option DasState
  | st, [] => some st
  | st, l :: ls =>
    match dasStep st l with
    | Option.none => Option.none
    | some st2 => dasRun st2 ls

/-- `DasFile.parse_das_file_data` applied to the normalized line list
`self.data` produced by `read_das_file`. -/
def parseDas (lines : List String) : Option DasState := dasRun dasInit lines

/-- Number of lines equal to a given marker. -/
def countEq (m : String) : List String → Nat
  | [] => 0
  | l :: ls => (if l = m then 1 else 0) + countEq m ls

/-- One step of the processing of a single model segment (the lines
between a `$MODEL` marker and the next dollar marker): a star line opens a
fresh star section and becomes the current one, any other line is appended
to the current star section (failing, as the source does with a
`KeyError`, when that section is absent — in particular on any data line
before the first star line of the model, whose stale current star section
cannot be a key of the fresh model dict). -/
def segStep (p : Model × String) (line : String) : Option (Model × String) :=
  if line.data.isEmpty then Option.none
  else if isStar line then some (alSet p.1 line ([] : List String), line)
  else
    match alAppend p.1 p.2 line with
    | Option.none => Option.none
    | some m2 => some (m2, p.2)

/-- Fold of `segStep` over a model segment. -/
def segRun : Model × String → List String → Option (Model × String)
  | p, [] => some p
  | p, l :: ls =>
    match segStep p l with
    | Option.none => Option.none
    | some p2 => segRun p2 ls

/-- The contents a single model segment parses to.  The initial current
star section is irrelevant for a fresh model (`segRun_star_irrel`), so it
is fixed to `"headers"`. -/
def segParse (ls : List String) : Option Model := (segRun (([] : Model), "headers") ls).map Prod.fst

/-- `notDollar` keeps the lines belonging to the currently open dollar
section. -/
def notDollar (l : String) : Bool := !(isDollar l)

/-- The segments of the input following each `$MODEL` marker, each running
up to the next dollar marker. -/
def modelSegments : List String → List (List String)
  | [] => []
  | l :: ls =>
    if l = "$MODEL" then (ls.takeWhile notDollar) :: modelSegments ls
    else modelSegments ls

/-- The segments of the input following each `$LOAD CASE` marker, each
running up to the next dollar marker.  Inside a load case the loop body
treats star and data lines exactly as inside a model (only the target
dict differs), so the same `segStep`/`segParse` describe the contents. -/
def lcSegments : List String → List (List String)
  | [] => []
  | l :: ls =>
    if l = "$LOAD CASE" then (ls.takeWhile notDollar) :: lcSegments ls
    else lcSegments ls

/-- `segParse` on each model segment. -/
def segParseAll : List (List String) → Option (List Model)
  | [] => some []
  | s :: ss =>
    match segParse s, segParseAll ss with
    | some m, some ms => some (m :: ms)
    | _, _ => Option.none

/-! ### Lemmas about the das parser -/

theorem modifyLast_append {α : Type} (f : α → Option α) (ms : List α) (m : α) :
    modifyLast f (ms ++ [m]) = (f m).map (fun x => ms ++ [x]) := by
  induction ms with
  | nil => simp [modifyLast]
  | cons a ms ih =>
    cases ms with
    | nil =>
      simp [modifyLast]
      cases f m <;> simp [modifyLast]
    | cons b ms2 =>
      simp only [List.cons_append, modifyLast, List.append_eq]
      simp only [List.cons_append] at ih
      rw [ih]
      cases h : f m <;> simp

theorem modifyLast_length {α : Type} (f : α → Option α) (l l2 : List α)
    (h : modifyLast f l = some l2) : l2.length = l.length := by
  induction l generalizing l2 with
  | nil => simp [modifyLast] at h
  | cons a l ih =>
    cases l with
    | nil =>
      simp [modifyLast] at h
      obtain ⟨x, _, h2⟩ := h
      simp [← h2]
    | cons b l3 =>
      simp only [modifyLast, Option.map_eq_some'] at h
      obtain ⟨l4, h4, h5⟩ := h
      simp [← h5, ih l4 h4]

theorem isDollar_nonempty (l : String) (h : isDollar l = true) : l.data.isEmpty = false := by
  unfold isDollar at h
  cases hd : l.data with
  | nil => rw [hd] at h; simp at h
  | cons c cs => simp [List.isEmpty]

theorem notDollar_ne_model (l : String) (h : notDollar l = true) : l ≠ "$MODEL" := by
  intro he
  subst he
  simp [notDollar, isDollar] at h

theorem modelSegments_dropWhile (ls : List String) :
    modelSegments (ls.dropWhile notDollar) = modelSegments ls := by
  induction ls with
  | nil => rfl
  | cons l ls ih =>
    by_cases h : notDollar l = true
    · rw [List.dropWhile_cons_of_pos h, ih, modelSegments,
        if_neg (notDollar_ne_model l h)]
    · rw [List.dropWhile_cons_of_neg h]

theorem notDollar_ne_lc (l : String) (h : notDollar l = true) : l ≠ "$LOAD CASE" := by
  intro he
  subst he
  simp [notDollar, isDollar] at h

theorem lcSegments_dropWhile (ls : List String) :
    lcSegments (ls.dropWhile notDollar) = lcSegments ls := by
  induction ls with
  | nil => rfl
  | cons l ls ih =>
    by_cases h : notDollar l = true
    · rw [List.dropWhile_cons_of_pos h, ih, lcSegments,
        if_neg (notDollar_ne_lc l h)]
    · rw [List.dropWhile_cons_of_neg h]

theorem segRun_fst_irrel (ls : List String) (s t : String) :
    (segRun (([] : Model), s) ls).map Prod.fst = (segRun (([] : Model), t) ls).map Prod.fst := by
  cases ls with
  | nil => rfl
  | cons l ls =>
    by_cases he : l.data.isEmpty
    · simp [segRun, segStep, he]
    · by_cases hs : isStar l = true
      · simp [segRun, segStep, he, hs]
      · simp [segRun, segStep, he, hs, alAppend]

theorem segParse_of_segRun (seg : List String) (star : String) (p : Model × String)
    (h : segRun (([] : Model), star) seg = some p) : segParse seg = some p.1 := by
  rw [segParse, segRun_fst_irrel seg "headers" star, h, Option.map_some']

theorem dasStep_dollar (st : DasState) (l : String) (h : isDollar l = true) :
    dasStep st l = some (dasStepDollar st l) := by
  rw [dasStep, isDollar_nonempty l h]
  simp [h]

theorem dasStepDollar_dollarSection (st : DasState) (l : String) :
    (dasStepDollar st l).dollarSection = l := by
  rw [dasStepDollar]
  by_cases h1 : l = "$MODEL" <;> by_cases h2 : l = "$LOAD CASE" <;> simp [h1, h2]

theorem dasStepDollar_starSection (st : DasState) (l : String) :
    (dasStepDollar st l).starSection = st.starSection := by
  rw [dasStepDollar]
  by_cases h1 : l = "$MODEL" <;> by_cases h2 : l = "$LOAD CASE" <;> simp [h1, h2]

theorem dasStepDollar_models_model (st : DasState) :
    (dasStepDollar st "$MODEL").models = st.models ++ [([] : Model)] := by
  rw [dasStepDollar]
  simp

theorem dasStepDollar_models_other (st : DasState) (l : String) (h : l ≠ "$MODEL") :
    (dasStepDollar st l).models = st.models := by
  rw [dasStepDollar]
  by_cases h2 : l = "$LOAD CASE" <;> simp [h, h2]

theorem dasStepStar_not_model (st st2 : DasState) (l : String)
    (h : st.dollarSection ≠ "$MODEL") (h2 : dasStepStar st l = some st2) :
    st2.models = st.models ∧ st2.dollarSection = st.dollarSection := by
  rw [dasStepStar, if_neg h] at h2
  by_cases h3 : st.dollarSection = "$LOAD CASE"
  · rw [if_pos h3] at h2
    simp only [Option.map_eq_some'] at h2
    obtain ⟨ms, _, h5⟩ := h2
    simp [← h5]
  · rw [if_neg h3] at h2
    split at h2
    · simp at h2
    · simp only [Option.some_inj] at h2
      simp [← h2]

theorem dasStepData_not_model (st st2 : DasState) (l : String)
    (h : st.dollarSection ≠ "$MODEL") (h2 : dasStepData st l = some st2) :
    st2.models = st.models ∧ st2.dollarSection = st.dollarSection := by
  rw [dasStepData, if_neg h] at h2
  by_cases h3 : st.dollarSection = "$LOAD CASE"
  · rw [if_pos h3] at h2
    simp only [Option.map_eq_some'] at h2
    obtain ⟨ms, _, h5⟩ := h2
    simp [← h5]
  · rw [if_neg h3] at h2
    split at h2
    · simp at h2
    · split at h2
      · simp at h2
      · simp only [Option.some_inj] at h2
        simp [← h2]

theorem dasStepStar_model (st : DasState) (l : String) (ms : List Model) (m : Model)
    (h : st.dollarSection = "$MODEL") (hm : st.models = ms ++ [m]) :
    dasStepStar st l =
      some { st with starSection := l, models := ms ++ [alSet m l ([] : List String)] } := by
  rw [dasStepStar, if_pos h, hm, modifyLast_append]
  simp

theorem dasStepData_model (st : DasState) (l : String) (ms : List Model) (m : Model)
    (h : st.dollarSection = "$MODEL") (hm : st.models = ms ++ [m]) :
    dasStepData st l =
      (alAppend m st.starSection l).map (fun m2 => { st with models := ms ++ [m2] }) := by
  rw [dasStepData, if_pos h, hm, modifyLast_append]
  cases alAppend m st.starSection l <;> simp

theorem dasStepDollar_loadCases_lc (st : DasState) :
    (dasStepDollar st "$LOAD CASE").loadCases = st.loadCases ++ [([] : Model)] := by
  rw [dasStepDollar]
  simp

theorem dasStepDollar_loadCases_other (st : DasState) (l : String) (h : l ≠ "$LOAD CASE") :
    (dasStepDollar st l).loadCases = st.loadCases := by
  rw [dasStepDollar]
  by_cases h2 : l = "$MODEL" <;> simp [h, h2]

theorem dasStepStar_not_lc (st st2 : DasState) (l : String)
    (h : st.dollarSection ≠ "$LOAD CASE") (h2 : dasStepStar st l = some st2) :
    st2.loadCases = st.loadCases ∧ st2.dollarSection = st.dollarSection := by
  rw [dasStepStar] at h2
  by_cases h1 : st.dollarSection = "$MODEL"
  · rw [if_pos h1] at h2
    simp only [Option.map_eq_some'] at h2
    obtain ⟨ms, _, h5⟩ := h2
    simp [← h5]
  · rw [if_neg h1, if_neg h] at h2
    split at h2
    · simp at h2
    · simp only [Option.some_inj] at h2
      simp [← h2]

theorem dasStepData_not_lc (st st2 : DasState) (l : String)
    (h : st.dollarSection ≠ "$LOAD CASE") (h2 : dasStepData st l = some st2) :
    st2.loadCases = st.loadCases ∧ st2.dollarSection = st.dollarSection := by
  rw [dasStepData] at h2
  by_cases h1 : st.dollarSection = "$MODEL"
  · rw [if_pos h1] at h2
    simp only [Option.map_eq_some'] at h2
    obtain ⟨ms, _, h5⟩ := h2
    simp [← h5]
  · rw [if_neg h1, if_neg h] at h2
    split at h2
    · simp at h2
    · split at h2
      · simp at h2
      · simp only [Option.some_inj] at h2
        simp [← h2]

theorem dasStepStar_lc (st : DasState) (l : String) (ms : List Model) (m : Model)
    (h : st.dollarSection = "$LOAD CASE") (hm : st.loadCases = ms ++ [m]) :
    dasStepStar st l =
      some { st with starSection := l, loadCases := ms ++ [alSet m l ([] : List String)] } := by
  have hne : ¬ st.dollarSection = "$MODEL" := by rw [h]; decide
  rw [dasStepStar, if_neg hne, if_pos h, hm, modifyLast_append]
  simp

theorem dasStepData_lc (st : DasState) (l : String) (ms : List Model) (m : Model)
    (h : st.dollarSection = "$LOAD CASE") (hm : st.loadCases = ms ++ [m]) :
    dasStepData st l =
      (alAppend m st.starSection l).map (fun m2 => { st with loadCases := ms ++ [m2] }) := by
  have hne : ¬ st.dollarSection = "$MODEL" := by rw [h]; decide
  rw [dasStepData, if_neg hne, if_pos h, hm, modifyLast_append]
  cases alAppend m st.starSection l <;> simp

theorem dasStepStar_counts (st st2 : DasState) (l : String) (h : dasStepStar st l = some st2) :
    st2.noModels = st.noModels ∧ st2.models.length = st.models.length ∧
    st2.noLoadCases = st.noLoadCases ∧ st2.loadCases.length = st.loadCases.length := by
  rw [dasStepStar] at h
  by_cases h1 : st.dollarSection = "$MODEL"
  · rw [if_pos h1] at h
    simp only [Option.map_eq_some'] at h
    obtain ⟨ms, hms, h2⟩ := h
    have hl := modifyLast_length _ _ _ hms
    simp [← h2, hl]
  · rw [if_neg h1] at h
    by_cases h2 : st.dollarSection = "$LOAD CASE"
    · rw [if_pos h2] at h
      simp only [Option.map_eq_some'] at h
      obtain ⟨ms, hms, h3⟩ := h
      have hl := modifyLast_length _ _ _ hms
      simp [← h3, hl]
    · rw [if_neg h2] at h
      split at h
      · simp at h
      · simp only [Option.some_inj] at h
        simp [← h]

theorem dasStepData_counts (st st2 : DasState) (l : String) (h : dasStepData st l = some st2) :
    st2.noModels = st.noModels ∧ st2.models.length = st.models.length ∧
    st2.noLoadCases = st.noLoadCases ∧ st2.loadCases.length = st.loadCases.length := by
  rw [dasStepData] at h
  by_cases h1 : st.dollarSection = "$MODEL"
  · rw [if_pos h1] at h
    simp only [Option.map_eq_some'] at h
    obtain ⟨ms, hms, h2⟩ := h
    have hl := modifyLast_length _ _ _ hms
    simp [← h2, hl]
  · rw [if_neg h1] at h
    by_cases h2 : st.dollarSection = "$LOAD CASE"
    · rw [if_pos h2] at h
      simp only [Option.map_eq_some'] at h
      obtain ⟨ms, hms, h3⟩ := h
      have hl := modifyLast_length _ _ _ hms
      simp [← h3, hl]
    · rw [if_neg h2] at h
      split at h
      · simp at h
      · split at h
        · simp at h
        · simp only [Option.some_inj] at h
          simp [← h]

theorem dasStep_counts (st st2 : DasState) (l : String) (h : dasStep st l = some st2) :
    st2.noModels = st.noModels + (if l = "$MODEL" then 1 else 0) ∧
    st2.models.length = st.models.length + (if l = "$MODEL" then 1 else 0) ∧
    st2.noLoadCases = st.noLoadCases + (if l = "$LOAD CASE" then 1 else 0) ∧
    st2.loadCases.length = st.loadCases.length + (if l = "$LOAD CASE" then 1 else 0) := by
  rw [dasStep] at h
  by_cases he : l.data.isEmpty
  · simp [he] at h
  · simp only [he, Bool.false_eq_true, if_false] at h
    by_cases hd : isDollar l = true
    · rw [if_pos hd] at h
      simp only [Option.some_inj] at h
      subst h
      by_cases hm : l = "$MODEL"
      · subst hm
        simp [dasStepDollar]
      · by_cases hlc : l = "$LOAD CASE"
        · subst hlc
          simp [dasStepDollar]
        · simp [dasStepDollar, hm, hlc]
    · have hM : l ≠ "$MODEL" := by
        intro he2; subst he2; exact hd (by decide)
      have hLC : l ≠ "$LOAD CASE" := by
        intro he2; subst he2; exact hd (by decide)
      rw [if_neg hd] at h
      simp only [hM, hLC, if_false, Nat.add_zero]
      by_cases hs : isStar l = true
      · rw [if_pos hs] at h
        exact dasStepStar_counts st st2 l h
      · rw [if_neg hs] at h
        exact dasStepData_counts st st2 l h

theorem dasRun_counts (ls : List String) : ∀ st st2 : DasState, dasRun st ls = some st2 →
    st2.noModels = st.noModels + countEq "$MODEL" ls ∧
    st2.models.length = st.models.length + countEq "$MODEL" ls ∧
    st2.noLoadCases = st.noLoadCases + countEq "$LOAD CASE" ls ∧
    st2.loadCases.length = st.loadCases.length + countEq "$LOAD CASE" ls := by
  induction ls with
  | nil =>
    intro st st2 h
    rw [dasRun, Option.some_inj] at h
    subst h
    simp [countEq]
  | cons l ls ih =>
    intro st st2 h
    rw [dasRun] at h
    split at h
    · simp at h
    · rename_i st1 heq
      obtain ⟨c1, c2, c3, c4⟩ := dasStep_counts st st1 l heq
      obtain ⟨d1, d2, d3, d4⟩ := ih st1 st2 h
      refine ⟨?_, ?_, ?_, ?_⟩ <;> simp only [countEq] <;> omega

/-- Outside a model: running the parser only appends the models parsed
from the `$MODEL` segments of the remaining lines. -/
def POut (ls : List String) : Prop :=
  ∀ st st2 : DasState, st.dollarSection ≠ "$MODEL" → dasRun st ls = some st2 →
    ∃ X, segParseAll (modelSegments ls) = some X ∧ st2.models = st.models ++ X

/-- Inside a model: the currently open (last) model keeps absorbing lines
up to the next dollar marker, and the rest of the input appends the models
of its own `$MODEL` segments. -/
def PIn (ls : List String) : Prop :=
  ∀ (st st2 : DasState) (ms : List Model) (m : Model),
    st.dollarSection = "$MODEL" → st.models = ms ++ [m] → dasRun st ls = some st2 →
    ∃ (p : Model × String) (X : List Model),
      segRun (m, st.starSection) (ls.takeWhile notDollar) = some p ∧
      segParseAll (modelSegments (ls.dropWhile notDollar)) = some X ∧
      st2.models = ms ++ p.1 :: X

theorem pOut_nil : POut [] := by
  intro st st2 _ h
  rw [dasRun, Option.some_inj] at h
  subst h
  exact ⟨[], rfl, by simp⟩

theorem pIn_nil : PIn [] := by
  intro st st2 ms m _ hm h
  rw [dasRun, Option.some_inj] at h
  subst h
  exact ⟨(m, st.starSection), [], rfl, rfl, by simp [hm]⟩

theorem dasContentAux : ∀ (n : Nat) (ls : List String), ls.length ≤ n → POut ls ∧ PIn ls := by
  intro n
  induction n with
  | zero =>
    intro ls hl
    have h0 : ls = [] := List.eq_nil_of_length_eq_zero (Nat.le_zero.mp hl)
    subst h0
    exact ⟨pOut_nil, pIn_nil⟩
  | succ k ih =>
    intro ls hl
    match ls with
    | [] => exact ⟨pOut_nil, pIn_nil⟩
    | l :: ls2 =>
      have hl2 : ls2.length ≤ k := by
        simp only [List.length_cons] at hl
        omega
      obtain ⟨ihOut, ihIn⟩ := ih ls2 hl2
      constructor
      · intro st st2 hds h
        rw [dasRun] at h
        split at h
        · simp at h
        · rename_i st1 heq
          by_cases he : l.data.isEmpty
          · rw [dasStep, if_pos he] at heq
            simp at heq
          · by_cases hd : isDollar l = true
            · rw [dasStep_dollar st l hd, Option.some_inj] at heq
              subst heq
              by_cases hm : l = "$MODEL"
              · subst hm
                obtain ⟨p, X, hseg, hX, hmods⟩ :=
                  ihIn (dasStepDollar st "$MODEL") st2 st.models []
                    (dasStepDollar_dollarSection st _) (dasStepDollar_models_model st) h
                refine ⟨p.1 :: X, ?_, ?_⟩
                · rw [modelSegments, if_pos rfl, segParseAll, segParse_of_segRun _ _ _ hseg]
                  rw [modelSegments_dropWhile] at hX
                  rw [hX]
                · rw [hmods]
              · obtain ⟨X, hX, hmods⟩ := ihOut (dasStepDollar st l) st2
                  (by rw [dasStepDollar_dollarSection]; exact hm) h
                refine ⟨X, ?_, ?_⟩
                · rw [modelSegments, if_neg hm]
                  exact hX
                · rw [hmods, dasStepDollar_models_other st l hm]
            · have hpres : st1.models = st.models ∧ st1.dollarSection = st.dollarSection := by
                rw [dasStep, if_neg he, if_neg hd] at heq
                by_cases hs : isStar l = true
                · rw [if_pos hs] at heq
                  exact dasStepStar_not_model st st1 l hds heq
                · rw [if_neg hs] at heq
                  exact dasStepData_not_model st st1 l hds heq
              have hM : l ≠ "$MODEL" := notDollar_ne_model l (by simp [notDollar, hd])
              obtain ⟨X, hX, hmods⟩ := ihOut st1 st2 (by rw [hpres.2]; exact hds) h
              refine ⟨X, ?_, ?_⟩
              · rw [modelSegments, if_neg hM]
                exact hX
              · rw [hmods, hpres.1]
      · intro st st2 ms m hds hm h
        rw [dasRun] at h
        split at h
        · simp at h
        · rename_i st1 heq
          by_cases he : l.data.isEmpty
          · rw [dasStep, if_pos he] at heq
            simp at heq
          · by_cases hd : isDollar l = true
            · rw [dasStep_dollar st l hd, Option.some_inj] at heq
              subst heq
              have hndl : notDollar l = false := by simp [notDollar, hd]
              have htw : ((l :: ls2).takeWhile notDollar) = [] := by
                simp [List.takeWhile_cons, hndl]
              have hdw : ((l :: ls2).dropWhile notDollar) = l :: ls2 := by
                rw [List.dropWhile_cons_of_neg]
                simp [hndl]
              by_cases hm2 : l = "$MODEL"
              · subst hm2
                obtain ⟨p2, X2, hseg2, hX2, hmods2⟩ :=
                  ihIn (dasStepDollar st "$MODEL") st2 (ms ++ [m]) []
                    (dasStepDollar_dollarSection st _)
                    (by rw [dasStepDollar_models_model, hm]) h
                refine ⟨(m, st.starSection), p2.1 :: X2, ?_, ?_, ?_⟩
                · rw [htw, segRun]
                · rw [hdw, modelSegments, if_pos rfl, segParseAll,
                    segParse_of_segRun _ _ _ hseg2]
                  rw [modelSegments_dropWhile] at hX2
                  rw [hX2]
                · rw [hmods2]
                  simp
              · obtain ⟨X, hX, hmods⟩ := ihOut (dasStepDollar st l) st2
                  (by rw [dasStepDollar_dollarSection]; exact hm2) h
                refine ⟨(m, st.starSection), X, ?_, ?_, ?_⟩
                · rw [htw, segRun]
                · rw [hdw, modelSegments, if_neg hm2]
                  exact hX
                · rw [hmods, dasStepDollar_models_other st l hm2, hm]
                  simp
            · have hnd : notDollar l = true := by simp [notDollar, hd]
              have htw : ((l :: ls2).takeWhile notDollar) = l :: ls2.takeWhile notDollar := by
                simp [List.takeWhile_cons, hnd]
              have hdw : ((l :: ls2).dropWhile notDollar) = ls2.dropWhile notDollar := by
                rw [List.dropWhile_cons_of_pos hnd]
              by_cases hs : isStar l = true
              · rw [dasStep, if_neg he, if_neg hd, if_pos hs,
                  dasStepStar_model st l ms m hds hm, Option.some_inj] at heq
                subst heq
                obtain ⟨p, X, hseg, hX, hmods⟩ :=
                  ihIn { st with starSection := l, models := ms ++ [alSet m l ([] : List String)] }
                    st2 ms (alSet m l ([] : List String)) hds rfl h
                refine ⟨p, X, ?_, ?_, ?_⟩
                · rw [htw, segRun]
                  have hstep : segStep (m, st.starSection) l =
                      some (alSet m l ([] : List String), l) := by
                    rw [segStep, if_neg he, if_pos hs]
                  rw [hstep]
                  exact hseg
                · rw [hdw]
                  exact hX
                · exact hmods
              · rw [dasStep, if_neg he, if_neg hd, if_neg hs,
                  dasStepData_model st l ms m hds hm] at heq
                simp only [Option.map_eq_some'] at heq
                obtain ⟨m2, hap, h1⟩ := heq
                subst h1
                obtain ⟨p, X, hseg, hX, hmods⟩ :=
                  ihIn { st with models := ms ++ [m2] } st2 ms m2 hds rfl h
                refine ⟨p, X, ?_, ?_, ?_⟩
                · rw [htw, segRun]
                  have hstep : segStep (m, st.starSection) l = some (m2, st.starSection) := by
                    rw [segStep, if_neg he, if_neg hs]
                    simp only [hap]
                  rw [hstep]
                  exact hseg
                · rw [hdw]
                  exact hX
                · exact hmods

/-- Outside a load case: running the parser only appends the load cases
parsed from the `$LOAD CASE` segments of the remaining lines. -/
def POutLC (ls : List String) : Prop :=
  ∀ st st2 : DasState, st.dollarSection ≠ "$LOAD CASE" → dasRun st ls = some st2 →
    ∃ X, segParseAll (lcSegments ls) = some X ∧ st2.loadCases = st.loadCases ++ X

/-- Inside a load case: the currently open (last) load case keeps absorbing
lines up to the next dollar marker, and the rest of the input appends the
load cases of its own `$LOAD CASE` segments. -/
def PInLC (ls : List String) : Prop :=
  ∀ (st st2 : DasState) (ms : List Model) (m : Model),
    st.dollarSection = "$LOAD CASE" → st.loadCases = ms ++ [m] → dasRun st ls = some st2 →
    ∃ (p : Model × String) (X : List Model),
      segRun (m, st.starSection) (ls.takeWhile notDollar) = some p ∧
      segParseAll (lcSegments (ls.dropWhile notDollar)) = some X ∧
      st2.loadCases = ms ++ p.1 :: X

theorem pOutLC_nil : POutLC [] := by
  intro st st2 _ h
  rw [dasRun, Option.some_inj] at h
  subst h
  exact ⟨[], rfl, by simp⟩

theorem pInLC_nil : PInLC [] := by
  intro st st2 ms m _ hm h
  rw [dasRun, Option.some_inj] at h
  subst h
  exact ⟨(m, st.starSection), [], rfl, rfl, by simp [hm]⟩

theorem dasContentAuxLC : ∀ (n : Nat) (ls : List String), ls.length ≤ n → POutLC ls ∧ PInLC ls := by
  intro n
  induction n with
  | zero =>
    intro ls hl
    have h0 : ls = [] := List.eq_nil_of_length_eq_zero (Nat.le_zero.mp hl)
    subst h0
    exact ⟨pOutLC_nil, pInLC_nil⟩
  | succ k ih =>
    intro ls hl
    match ls with
    | [] => exact ⟨pOutLC_nil, pInLC_nil⟩
    | l :: ls2 =>
      have hl2 : ls2.length ≤ k := by
        simp only [List.length_cons] at hl
        omega
      obtain ⟨ihOut, ihIn⟩ := ih ls2 hl2
      constructor
      · intro st st2 hds h
        rw [dasRun] at h
        split at h
        · simp at h
        · rename_i st1 heq
          by_cases he : l.data.isEmpty
          · rw [dasStep, if_pos he] at heq
            simp at heq
          · by_cases hd : isDollar l = true
            · rw [dasStep_dollar st l hd, Option.some_inj] at heq
              subst heq
              by_cases hm : l = "$LOAD CASE"
              · subst hm
                obtain ⟨p, X, hseg, hX, hlcs⟩ :=
                  ihIn (dasStepDollar st "$LOAD CASE") st2 st.loadCases []
                    (dasStepDollar_dollarSection st _) (dasStepDollar_loadCases_lc st) h
                refine ⟨p.1 :: X, ?_, ?_⟩
                · rw [lcSegments, if_pos rfl, segParseAll, segParse_of_segRun _ _ _ hseg]
                  rw [lcSegments_dropWhile] at hX
                  rw [hX]
                · rw [hlcs]
              · obtain ⟨X, hX, hlcs⟩ := ihOut (dasStepDollar st l) st2
                  (by rw [dasStepDollar_dollarSection]; exact hm) h
                refine ⟨X, ?_, ?_⟩
                · rw [lcSegments, if_neg hm]
                  exact hX
                · rw [hlcs, dasStepDollar_loadCases_other st l hm]
            · have hpres : st1.loadCases = st.loadCases ∧ st1.dollarSection = st.dollarSection := by
                rw [dasStep, if_neg he, if_neg hd] at heq
                by_cases hs : isStar l = true
                · rw [if_pos hs] at heq
                  exact dasStepStar_not_lc st st1 l hds heq
                · rw [if_neg hs] at heq
                  exact dasStepData_not_lc st st1 l hds heq
              have hLC : l ≠ "$LOAD CASE" := notDollar_ne_lc l (by simp [notDollar, hd])
              obtain ⟨X, hX, hlcs⟩ := ihOut st1 st2 (by rw [hpres.2]; exact hds) h
              refine ⟨X, ?_, ?_⟩
              · rw [lcSegments, if_neg hLC]
                exact hX
              · rw [hlcs, hpres.1]
      · intro st st2 ms m hds hm h
        rw [dasRun] at h
        split at h
        · simp at h
        · rename_i st1 heq
          by_cases he : l.data.isEmpty
          · rw [dasStep, if_pos he] at heq
            simp at heq
          · by_cases hd : isDollar l = true
            · rw [dasStep_dollar st l hd, Option.some_inj] at heq
              subst heq
              have hndl : notDollar l = false := by simp [notDollar, hd]
              have htw : ((l :: ls2).takeWhile notDollar) = [] := by
                simp [List.takeWhile_cons, hndl]
              have hdw : ((l :: ls2).dropWhile notDollar) = l :: ls2 := by
                rw [List.dropWhile_cons_of_neg]
                simp [hndl]
              by_cases hm2 : l = "$LOAD CASE"
              · subst hm2
                obtain ⟨p2, X2, hseg2, hX2, hlcs2⟩ :=
                  ihIn (dasStepDollar st "$LOAD CASE") st2 (ms ++ [m]) []
                    (dasStepDollar_dollarSection st _)
                    (by rw [dasStepDollar_loadCases_lc, hm]) h
                refine ⟨(m, st.starSection), p2.1 :: X2, ?_, ?_, ?_⟩
                · rw [htw, segRun]
                · rw [hdw, lcSegments, if_pos rfl, segParseAll,
                    segParse_of_segRun _ _ _ hseg2]
                  rw [lcSegments_dropWhile] at hX2
                  rw [hX2]
                · rw [hlcs2]
                  simp
              · obtain ⟨X, hX, hlcs⟩ := ihOut (dasStepDollar st l) st2
                  (by rw [dasStepDollar_dollarSection]; exact hm2) h
                refine ⟨(m, st.starSection), X, ?_, ?_, ?_⟩
                · rw [htw, segRun]
                · rw [hdw, lcSegments, if_neg hm2]
                  exact hX
                · rw [hlcs, dasStepDollar_loadCases_other st l hm2, hm]
                  simp
            · have hnd : notDollar l = true := by simp [notDollar, hd]
              have htw : ((l :: ls2).takeWhile notDollar) = l :: ls2.takeWhile notDollar := by
                simp [List.takeWhile_cons, hnd]
              have hdw : ((l :: ls2).dropWhile notDollar) = ls2.dropWhile notDollar := by
                rw [List.dropWhile_cons_of_pos hnd]
              by_cases hs : isStar l = true
              · rw [dasStep, if_neg he, if_neg hd, if_pos hs,
                  dasStepStar_lc st l ms m hds hm, Option.some_inj] at heq
                subst heq
                obtain ⟨p, X, hseg, hX, hlcs⟩ :=
                  ihIn { st with starSection := l, loadCases := ms ++ [alSet m l ([] : List String)] }
                    st2 ms (alSet m l ([] : List String)) hds rfl h
                refine ⟨p, X, ?_, ?_, ?_⟩
                · rw [htw, segRun]
                  have hstep : segStep (m, st.starSection) l =
                      some (alSet m l ([] : List String), l) := by
                    rw [segStep, if_neg he, if_pos hs]
                  rw [hstep]
                  exact hseg
                · rw [hdw]
                  exact hX
                · exact hlcs
              · rw [dasStep, if_neg he, if_neg hd, if_neg hs,
                  dasStepData_lc st l ms m hds hm] at heq
                simp only [Option.map_eq_some'] at heq
                obtain ⟨m2, hap, h1⟩ := heq
                subst h1
                obtain ⟨p, X, hseg, hX, hlcs⟩ :=
                  ihIn { st with loadCases := ms ++ [m2] } st2 ms m2 hds rfl h
                refine ⟨p, X, ?_, ?_, ?_⟩
                · rw [htw, segRun]
                  have hstep : segStep (m, st.starSection) l = some (m2, st.starSection) := by
                    rw [segStep, if_neg he, if_neg hs]
                    simp only [hap]
                  rw [hstep]
                  exact hseg
                · rw [hdw]
                  exact hX
                · exact hlcs

/-- C1: for an input with `r` lines `$MODEL` (resp. `$LOAD CASE`), a
successful parse yields exactly `r` numbered model (resp. load case)
instances — Python keys `1 .. r` are list positions `0 .. r-1` here, in
encounter order — and the instances are exactly the parses of the
segments following each `$MODEL` (resp. `$LOAD CASE`) marker. -/
theorem claim_C1_das_occurrence_counting (lines : List String) (st : DasState)
    (h : parseDas lines = some st) :
    st.noModels = countEq "$MODEL" lines ∧
    st.models.length = countEq "$MODEL" lines ∧
    st.noLoadCases = countEq "$LOAD CASE" lines ∧
    st.loadCases.length = countEq "$LOAD CASE" lines ∧
    segParseAll (modelSegments lines) = some st.models ∧
    segParseAll (lcSegments lines) = some st.loadCases := by
  have hc := dasRun_counts lines dasInit st h
  obtain ⟨X, hX, hmods⟩ :=
    (dasContentAux lines.length lines le_rfl).1 dasInit st (by decide) h
  obtain ⟨Y, hY, hlcs⟩ :=
    (dasContentAuxLC lines.length lines le_rfl).1 dasInit st (by decide) h
  rw [dasInit] at hc hmods hlcs
  simp only [List.length_nil, List.nil_append, Nat.zero_add] at hc hmods hlcs
  subst hmods
  subst hlcs
  exact ⟨hc.1, hc.2.1, hc.2.2.1, hc.2.2.2, hX, hY⟩

/-- A das input with two models and one load case, used to instantiate the
claim theorems at a concrete input. -/
def dasExLines : List String :=
  ["$MODEL", "*NODE", "1, 0.0", "$MODEL", "*OCEAN", "100.0,1", "$LOAD CASE", "*WIND", "10,0"]

/-- The state `parseDas` reaches on `dasExLines`. -/
def dasExSt : DasState :=
  { dollarSection := "$LOAD CASE", starSection := "*WIND", noModels := 2,
    models := [[("*NODE", ["1, 0.0"])], [("*OCEAN", ["100.0,1"])]],
    noLoadCases := 1, loadCases := [[("*WIND", ["10,0"])]],
    dasData := [("headers", [("headers", [])]), ("$MODEL", [])] }

/-- Witness for C1 at the concrete input `dasExLines`. -/
theorem claim_C1_witness :
    dasExSt.noModels = countEq "$MODEL" dasExLines ∧
    dasExSt.models.length = countEq "$MODEL" dasExLines ∧
    dasExSt.noLoadCases = countEq "$LOAD CASE" dasExLines ∧
    dasExSt.loadCases.length = countEq "$LOAD CASE" dasExLines ∧
    segParseAll (modelSegments dasExLines) = some dasExSt.models ∧
    segParseAll (lcSegments dasExLines) = some dasExSt.loadCases :=
  claim_C1_das_occurrence_counting dasExLines dasExSt (by decide)

/-- Effect of one das parsing step on `das_data`: it is unchanged, or one
key is assigned — never the key `'$LOAD CASE'`, and the key `'$MODEL'`
only ever receives the empty dict. -/
theorem dasStep_dasData (st st2 : DasState) (l : String) (h : dasStep st l = some st2) :
    st2.dasData = st.dasData ∨
    ∃ k v, k ≠ "$LOAD CASE" ∧ (k = "$MODEL" → v = ([] : Model)) ∧
      st2.dasData = alSet st.dasData k v := by
  rw [dasStep] at h
  by_cases he : l.data.isEmpty
  · simp [he] at h
  · rw [if_neg he] at h
    by_cases hd : isDollar l = true
    · rw [if_pos hd, Option.some_inj] at h
      subst h
      rw [dasStepDollar]
      by_cases hlc : l = "$LOAD CASE"
      · simp [hlc]
      · rw [if_neg hlc]
        refine Or.inr ⟨l, ([] : Model), hlc, fun _ => rfl, ?_⟩
        by_cases hm : l = "$MODEL" <;> simp [hm]
    · rw [if_neg hd] at h
      by_cases hs : isStar l = true
      · rw [if_pos hs] at h
        rw [dasStepStar] at h
        by_cases h1 : st.dollarSection = "$MODEL"
        · rw [if_pos h1] at h
          simp only [Option.map_eq_some'] at h
          obtain ⟨ms, _, h2⟩ := h
          subst h2
          exact Or.inl rfl
        · rw [if_neg h1] at h
          by_cases h2 : st.dollarSection = "$LOAD CASE"
          · rw [if_pos h2] at h
            simp only [Option.map_eq_some'] at h
            obtain ⟨ms, _, h3⟩ := h
            subst h3
            exact Or.inl rfl
          · rw [if_neg h2] at h
            split at h
            · simp at h
            · rename_i m hg
              simp only [Option.some_inj] at h
              subst h
              exact Or.inr ⟨st.dollarSection, _, h2, fun hc => absurd hc h1, rfl⟩
      · rw [if_neg hs] at h
        rw [dasStepData] at h
        by_cases h1 : st.dollarSection = "$MODEL"
        · rw [if_pos h1] at h
          simp only [Option.map_eq_some'] at h
          obtain ⟨ms, _, h2⟩ := h
          subst h2
          exact Or.inl rfl
        · rw [if_neg h1] at h
          by_cases h2 : st.dollarSection = "$LOAD CASE"
          · rw [if_pos h2] at h
            simp only [Option.map_eq_some'] at h
            obtain ⟨ms, _, h3⟩ := h
            subst h3
            exact Or.inl rfl
          · rw [if_neg h2] at h
            split at h
            · simp at h
            · split at h
              · simp at h
              · rename_i m hg m2 hap
                simp only [Option.some_inj] at h
                subst h
                exact Or.inr ⟨st.dollarSection, m2, h2, fun hc => absurd hc h1, rfl⟩

theorem dasRun_model_entry (ls : List String) : ∀ st st2 : DasState,
    dasRun st ls = some st2 → alGet? st.dasData "$MODEL" = some ([] : Model) →
    alGet? st2.dasData "$MODEL" = some ([] : Model) := by
  induction ls with
  | nil =>
    intro st st2 h hm
    rw [dasRun, Option.some_inj] at h
    subst h
    exact hm
  | cons l ls ih =>
    intro st st2 h hm
    rw [dasRun] at h
    split at h
    · simp at h
    · rename_i st1 heq
      refine ih st1 st2 h ?_
      rcases dasStep_dasData st st1 l heq with h1 | ⟨k, v, hk1, hk2, h1⟩
      · rw [h1]; exact hm
      · rw [h1]
        by_cases hkm : k = "$MODEL"
        · subst hkm
          rw [hk2 rfl]
          exact alGet?_alSet_self _ _ _
        · rw [alGet?_alSet_ne _ _ _ _ hkm]
          exact hm

theorem dasRun_no_loadcase_key (ls : List String) : ∀ st st2 : DasState,
    dasRun st ls = some st2 → alGet? st.dasData "$LOAD CASE" = Option.none →
    alGet? st2.dasData "$LOAD CASE" = Option.none := by
  induction ls with
  | nil =>
    intro st st2 h hm
    rw [dasRun, Option.some_inj] at h
    subst h
    exact hm
  | cons l ls ih =>
    intro st st2 h hm
    rw [dasRun] at h
    split at h
    · simp at h
    · rename_i st1 heq
      refine ih st1 st2 h ?_
      rcases dasStep_dasData st st1 l heq with h1 | ⟨k, v, hk1, _, h1⟩
      · rw [h1]; exact hm
      · rw [h1, alGet?_alSet_ne _ _ _ _ hk1]
        exact hm

theorem dasRun_model_entry_of_mem (ls : List String) : ∀ st st2 : DasState,
    dasRun st ls = some st2 → "$MODEL" ∈ ls →
    alGet? st2.dasData "$MODEL" = some ([] : Model) := by
  induction ls with
  | nil =>
    intro st st2 _ hmem
    simp at hmem
  | cons l ls ih =>
    intro st st2 h hmem
    rw [dasRun] at h
    split at h
    · simp at h
    · rename_i st1 heq
      by_cases hl : l = "$MODEL"
      · subst hl
        refine dasRun_model_entry ls st1 st2 h ?_
        rw [dasStep_dollar st _ (by decide), Option.some_inj] at heq
        subst heq
        rw [dasStepDollar]
        simp only [if_neg (by decide : ¬("$MODEL" : String) = "$LOAD CASE"), if_pos rfl]
        exact alGet?_alSet_self _ _ _
      · rcases List.mem_cons.mp hmem with h2 | h2
        · exact absurd h2.symm hl
        · exact ih st1 st2 h h2

/-- C10: after a successful parse of an input containing a `$MODEL` line,
`das_data` maps `'$MODEL'` to a dict that stayed empty (the star sections
and data lines of the models live only in the numbered `models`), and
`das_data` never acquires a `'$LOAD CASE'` key at all. -/
theorem claim_C10_das_data_model_empty (lines : List String) (st : DasState)
    (h : parseDas lines = some st) (hmem : "$MODEL" ∈ lines) :
    alGet? st.dasData "$MODEL" = some ([] : Model) ∧
    alGet? st.dasData "$LOAD CASE" = Option.none := by
  refine ⟨dasRun_model_entry_of_mem lines dasInit st h hmem, ?_⟩
  exact dasRun_no_loadcase_key lines dasInit st h (by decide)

/-- Witness for C10 at the concrete input `dasExLines`. -/
theorem claim_C10_witness :
    alGet? dasExSt.dasData "$MODEL" = some ([] : Model) ∧
    alGet? dasExSt.dasData "$LOAD CASE" = Option.none :=
  claim_C10_das_data_model_empty dasExLines dasExSt (by decide) (by decide)

/-! ## das_file_reader.py — field extraction used by C2 and C3 -/

/-- `DasFile.get_analysis_type`: reads `self.das_data['$ANALYSIS']`
*unguarded* (outer `none` = `KeyError` when the `$ANALYSIS` section is
absent), then scans the guarded `*ANALYSIS TYPE` lines for `TYPE=`,
keeping the last match (starting from the `None` set in
`setup_variables`). -/
def getAnalysisType (dasData : List (String × Model)) : Option (Option String) :=
  match alGet? dasData "$ANALYSIS" with
  | Option.none => Option.none
  | some sec =>
    let ds := match alGet? sec "*ANALYSIS TYPE" with
              | some ds => ds
              | Option.none => []
    some (ds.foldl (fun acc d =>
      if strContains "TYPE=" d then some (pyTrim ((pySplit d "=").getD 1 "")) else acc)
      Option.none)

/-- `DasFile.process_water_depth` at the default `model=1` (list index 0):
guarded on `'*OCEAN' in self.models[1]` (absent section gives water depth
`None`), but `self.models[1]`, the `[0]` row access and `float()` are
unguarded (outer `none` = `KeyError` / `IndexError` / `ValueError`). -/
def processWaterDepth (models : List Model) : Option (Option ℚ) :=
  match models.get? 0 with
  | Option.none => Option.none
  | some m =>
    match alGet? m "*OCEAN" with
    | Option.none => some Option.none
    | some ds =>
      match ds.get? 0 with
      | Option.none => Option.none
      | some l0 =>
        match pyFloat? ((pySplit l0 ",").getD 0 "") with
        | Option.none => Option.none
        | some q => some (some q)

/-- The load-case name extraction at the top of
`DasFile.gen_load_case_summary`: iterates `self.load_cases[l]['*DIRECTORY']`
*unguarded* (outer `none` = `KeyError` when the load case has no
`*DIRECTORY` section), keeping the last `DIRECTORY=` match with quotes
removed. -/
def lcDirectoryName (lc : Model) : Option (Option String) :=
  match alGet? lc "*DIRECTORY" with
  | Option.none => Option.none
  | some ds =>
    some (ds.foldl (fun acc d =>
      if strContains "DIRECTORY=" d then
        some (pyReplace (pyTrim ((pySplit d "DIRECTORY=").getD 1 "")) "\"" "")
      else acc) Option.none)

/-- C2 counterexample: on an input with no `$ANALYSIS` marker (here the
empty input, whose parse succeeds), `get_analysis_type` does not leave the
field null and continue — it aborts with a `KeyError` (`none`), contrary
to the claim that only filesystem failure is fatal. -/
theorem claim_C2_counterexample :
    parseDas ([] : List String) = some dasInit ∧
    alGet? dasInit.dasData "$ANALYSIS" = Option.none ∧
    getAnalysisType dasInit.dasData = Option.none ∧
    ¬ getAnalysisType dasInit.dasData = some Option.none := by
  refine ⟨rfl, by decide, by decide, by decide⟩

/-- C2 amended: sections guarded by a membership test (such as `*OCEAN`
in `process_water_depth`) do leave their field null when absent; but
`get_analysis_type` aborts with a `KeyError` exactly when `$ANALYSIS` is
absent, and the load-case summary aborts with a `KeyError` exactly when a
load case lacks `*DIRECTORY`. -/
theorem claim_C2_amended_soft_and_hard_sections :
    (∀ d : List (String × Model),
      getAnalysisType d = Option.none ↔ alGet? d "$ANALYSIS" = Option.none) ∧
    (∀ lc : Model, lcDirectoryName lc = Option.none ↔ alGet? lc "*DIRECTORY" = Option.none) ∧
    (∀ (m : Model) (ms : List Model), alGet? m "*OCEAN" = Option.none →
      processWaterDepth (m :: ms) = some Option.none) := by
  refine ⟨?_, ?_, ?_⟩
  · intro d
    rw [getAnalysisType]
    cases alGet? d "$ANALYSIS" <;> simp
  · intro lc
    rw [lcDirectoryName]
    cases alGet? lc "*DIRECTORY" <;> simp
  · intro m ms h
    rw [processWaterDepth]
    simp [h]

/-- Witness for the amended C2 at concrete inputs. -/
theorem claim_C2_amended_witness :
    (getAnalysisType [] = Option.none ↔ alGet? ([] : List (String × Model)) "$ANALYSIS" = Option.none) ∧
    processWaterDepth [([] : Model)] = some Option.none :=
  ⟨claim_C2_amended_soft_and_hard_sections.1 [],
   claim_C2_amended_soft_and_hard_sections.2.2 [] [] (by decide)⟩

/-! ## dpx_reader.py — `convert_to_number` -/

/-- The possible results of `convert_to_number`: a parsed float, the raw
string, Python `None`, or `np.nan`. -/
inductive PyNum where
  | num (q : ℚ)
  | raw (s : String)
  | pyNone
  | nan
deriving DecidableEq

/-- `dpx_reader.convert_to_number`: raises (`none`) when both flags are
set; otherwise tries `float(s)` and on `ValueError` falls back to `None`,
`np.nan`, or the raw string depending on the flags — the default
(`return_none=False, return_np_nan=False`) returns the raw string. -/
def convert_to_number (s : String) (return_none return_np_nan : Bool) : Option PyNum :=
  if return_none = true ∧ return_np_nan = true then Option.none
  else
    match pyFloat? s with
    | some q => some (.num q)
    | Option.none =>
      if return_none then some .pyNone
      else if return_np_nan then some .nan
      else some (.raw s)

/-- C3 counterexample: the token `"abc"` fails float parsing, and under
the default policy `convert_to_number` silently returns the raw string —
not null — and appends nothing to any error list. -/
theorem claim_C3_counterexample :
    pyFloat? "abc" = Option.none ∧
    convert_to_number "abc" false false = some (PyNum.raw "abc") ∧
    ¬ convert_to_number "abc" false false = some PyNum.pyNone := by
  refine ⟨by decide, by decide, by decide⟩

/-- C3 amended: on a token that fails float parsing `convert_to_number`
never raises, but its default policy stores the raw string; null is
returned only under `return_none=True` and `np.nan` only under
`return_np_nan=True` (no error-list entry is made in any case); and
`process_water_depth` applies `float()` unguarded, so a non-numeric first
`*OCEAN` token aborts the das read with a `ValueError`. -/
theorem claim_C3_amended_numeric_fallback : ∀ s : String, pyFloat? s = Option.none →
    convert_to_number s false false = some (PyNum.raw s) ∧
    convert_to_number s true false = some PyNum.pyNone ∧
    convert_to_number s false true = some PyNum.nan ∧
    (∀ (m : Model) (ms : List Model) (l0 : String) (ds : List String),
      alGet? m "*OCEAN" = some (l0 :: ds) → (pySplit l0 ",").getD 0 "" = s →
      processWaterDepth (m :: ms) = Option.none) := by
  intro s h
  refine ⟨?_, ?_, ?_, ?_⟩
  · rw [convert_to_number]
    simp [h]
  · rw [convert_to_number]
    simp [h]
  · rw [convert_to_number]
    simp [h]
  · intro m ms l0 ds hm htok
    rw [processWaterDepth]
    simp only [List.get?_cons_zero, hm, htok, h]

/-- Witness for the amended C3 at the concrete token `"abc"`. -/
theorem claim_C3_amended_witness :
    convert_to_number "abc" false false = some (PyNum.raw "abc") ∧
    convert_to_number "abc" true false = some PyNum.pyNone ∧
    convert_to_number "abc" false true = some PyNum.nan ∧
    processWaterDepth [[("*OCEAN", ["abc,1"])]] = Option.none := by
  have h := claim_C3_amended_numeric_fallback "abc" (by decide)
  exact ⟨h.1, h.2.1, h.2.2.1,
    h.2.2.2 [("*OCEAN", ["abc,1"])] [] "abc,1" [] (by decide) (by decide)⟩

/-! ## das_file_reader.py — `process_element_sets` and `process_hydro_sets` -/

/-- Monadic map over `Option`, written out so it unfolds structurally. -/
def optMapM {α β : Type} (f : α → Option β) : List α → Option (List β)
  | [] => some []
  | a :: l =>
    match f a, optMapM f l with
    | some b, some bs => some (b :: bs)
    | _, _ => Option.none

/-- Python's `range(a, b + 1)` over integers. -/
def intRange (a b : ℤ) : List ℤ := (List.range (b + 1 - a).toNat).map (fun i => a + (i : ℤ))

/-- One data row of `*ELEMENT SETS`: either a `GEN=first,last` element
range or a comma-separated list of element numbers (each `int()`-parsed;
`none` models `ValueError`/`IndexError`). -/
def esParseRow (e : String) : Option (List ℤ) :=
  if strContains "GEN=" e then
    let g := pySplit (pyReplace e "GEN=" "") ","
    match g.get? 0, g.get? 1 with
    | some a, some b =>
      match pyInt? a, pyInt? b with
      | some x, some y => some (intRange x y)
      | _, _ => Option.none
    | _, _ => Option.none
  else
    optMapM pyInt? (pySplit e ",")

/-- One iteration of the loop in `DasFile.process_element_sets`: a line
starting `SET=` opens (or resets) the named set and makes it current; any
other line is attributed to the current set (and silently skipped while no
set is open, i.e. while `set == ''`). -/
def esStep (st : String × List (String × List ℤ)) (e : String) :
    Option (String × List (String × List ℤ)) :=
  if e.take 4 = "SET=" then
    let name := pyTrim (e.drop 4)
    some (name, alSet st.2 name ([] : List ℤ))
  else if st.1 ≠ "" then
    match esParseRow e with
    | Option.none => Option.none
    | some xs =>
      match alGet? st.2 st.1 with
      | Option.none => Option.none
      | some old => some (st.1, alSet st.2 st.1 (old ++ xs))
  else some st

/-- The loop of `process_element_sets` over the `*ELEMENT SETS` lines. -/
def esRun : String × List (String × List ℤ) → List String → Option (String × List (String × List ℤ))
  | st, [] => some st
  | st, e :: es =>
    match esStep st e with
    | Option.none => Option.none
    | some st2 => esRun st2 es

/-- `DasFile.process_element_sets` for one model: the inner `Option` is
the Python return value, which is `None` when the model has no
`*ELEMENT SETS` section (the `return` sits inside the `if`). -/
def processElementSets (m : Model) : Option (Option (List (String × List ℤ))) :=
  match alGet? m "*ELEMENT SETS" with
  | Option.none => some Option.none
  | some ds => (esRun ("", []) ds).map (fun st => some st.2)

/-- One row of the hydro-set DataFrame built by
`DasFile.process_hydro_sets` (the dict created per set). -/
structure HydroEntry where
  htype : Option String
  diameter : Option String
  hoption : Option String
  normalDrag : Option ℚ
  tangentialDrag : Option ℚ
  normalInertia : Option ℚ
  normalAddedMass : Option ℚ
  tangentialAddedMass : Option ℚ
  dragLift : Option ℚ
deriving DecidableEq

/-- Key of `hydro_sets`: either a plain set name, or — for non-constant
sets — Python's `f'{set_name} Re - {reynolds}'`, modelled as the pair of
the name and the Reynolds number (the formatting of the float into the
key string is not itself load-bearing and never collides in the claims). -/
inductive HydroKey where
  | plain (s : String)
  | reynolds (s : String) (q : ℚ)
deriving DecidableEq

/-- The dict `{'Type': t, 'Diameter': dia, 'Option': opt, ...coeffs None}`. -/
def freshHydroEntry (t dia opt : Option String) : HydroEntry :=
  ⟨t, dia, opt, Option.none, Option.none, Option.none, Option.none, Option.none, Option.none⟩

/-- `hydro_sets[...][coeffs[idx]] = v`: assignment by coefficient index;
`none` models the `IndexError` past the six declared coefficient names. -/
def setHydroCoeff (e : HydroEntry) : Nat → ℚ → Option HydroEntry
  | 0, v => some { e with normalDrag := some v }
  | 1, v => some { e with tangentialDrag := some v }
  | 2, v => some { e with normalInertia := some v }
  | 3, v => some { e with normalAddedMass := some v }
  | 4, v => some { e with tangentialAddedMass := some v }
  | 5, v => some { e with dragLift := some v }
  | _ + 6, _ => Option.none

/-- The `for idx, c in enumerate(...)` coefficient loop: floats each token
and assigns it to the coefficient at its index. -/
def setHydroCoeffs (e : HydroEntry) : List String → Nat → Option HydroEntry
  | [], _ => some e
  | c :: cs, i =>
    match pyFloat? c with
    | Option.none => Option.none
    | some v =>
      match setHydroCoeff e i v with
      | Option.none => Option.none
      | some e2 => setHydroCoeffs e2 cs (i + 1)

/-- The loop state of `process_hydro_sets`: the carry-forward variables
`option`, `diameter`, `hydro_type` (initialised to `None` before the
model loop), the current `set_name` (`none` models the variable being
unbound, a `NameError` when read), and the accumulated `hydro_sets`. -/
structure HydroState where
  hoption : Option String
  diameter : Option String
  htype : Option String
  setName : Option String
  sets : List (HydroKey × HydroEntry)
deriving DecidableEq

/-- One iteration of the line loop in `DasFile.process_hydro_sets`. -/
def hydroStep (st : HydroState) (s : String) : Option HydroState :=
  if strContains "SET=" s then
    let s2 := pyReplace s "SET=" ""
    let name := pyTrim ((pySplit s2 ",").getD 0 "")
    let ht : Option String :=
      if strContains "," s2 then
        some (pyLower (pyReplace (pyTrim ((pySplit s2 ",").getD 1 "")) "TYPE=" ""))
      else st.htype
    match ht with
    | Option.none => Option.none
    | some t =>
      if pyLower t = "constant" then
        some { st with
                htype := some t
                setName := some name
                sets := alSet st.sets (HydroKey.plain name)
                          (freshHydroEntry (some t) st.diameter st.hoption) }
      else
        some { st with htype := some t, setName := some name }
  else if strContains "DIAMETER=" s then
    some { st with diameter := some (pyTrim ((pySplit s "DIAMETER=").getD 1 "")) }
  else if strContains "OPTION=" s then
    some { st with hoption := some (pyTrim ((pySplit s "OPTION=").getD 1 "")) }
  else
    if st.htype = some "constant" then
      match st.setName with
      | Option.none => Option.none
      | some name =>
        match alGet? st.sets (HydroKey.plain name) with
        | Option.none => Option.none
        | some e =>
          match setHydroCoeffs e (pySplit s ",") 0 with
          | Option.none => Option.none
          | some e2 => some { st with sets := alSet st.sets (HydroKey.plain name) e2 }
    else
      match pyFloat? ((pySplit s ",").getD 0 "") with
      | Option.none => Option.none
      | some rey =>
        match st.setName with
        | Option.none => Option.none
        | some name =>
          match setHydroCoeffs (freshHydroEntry st.htype st.diameter st.hoption)
                  ((pySplit s ",").drop 1) 0 with
          | Option.none => Option.none
          | some e2 => some { st with sets := alSet st.sets (HydroKey.reynolds name rey) e2 }

/-- The loop of `process_hydro_sets` over one `*HYDRODYNAMIC SETS` section. -/
def hydroRun : HydroState → List String → Option HydroState
  | st, [] => some st
  | st, s :: ss =>
    match hydroStep st s with
    | Option.none => Option.none
    | some st2 => hydroRun st2 ss

theorem esRun_rows (rows : List String) :
    ∀ (cur : String) (sets : List (String × List ℤ)) (acc : List ℤ)
      (st2 : String × List (String × List ℤ)),
    cur ≠ "" → alGet? sets cur = some acc →
    (∀ r ∈ rows, r.take 4 ≠ "SET=") →
    esRun (cur, sets) rows = some st2 →
    ∃ xss, optMapM esParseRow rows = some xss ∧
      st2.1 = cur ∧ alGet? st2.2 cur = some (acc ++ xss.flatten) ∧
      ∀ k, k ≠ cur → alGet? st2.2 k = alGet? sets k := by
  induction rows with
  | nil =>
    intro cur sets acc st2 _ hacc _ h
    rw [esRun, Option.some_inj] at h
    subst h
    exact ⟨[], rfl, rfl, by simpa using hacc, fun k _ => rfl⟩
  | cons r rows ih =>
    intro cur sets acc st2 hcur hacc hrows h
    rw [esRun] at h
    split at h
    · simp at h
    · rename_i st1 heq
      rw [esStep, if_neg (hrows r (List.mem_cons_self r rows)), if_pos hcur] at heq
      split at heq
      · exact Option.noConfusion heq
      · rename_i xs hxs
        rw [hacc, Option.some_inj] at heq
        subst heq
        obtain ⟨xss, hxss, h1, h2, h3⟩ :=
          ih cur (alSet sets cur (acc ++ xs)) (acc ++ xs) st2 hcur
            (alGet?_alSet_self _ _ _) (fun x hx => hrows x (List.mem_cons_of_mem r hx)) h
        refine ⟨xs :: xss, ?_, h1, ?_, ?_⟩
        · rw [optMapM, hxs, hxss]
        · rw [h2, List.flatten_cons, List.append_assoc]
        · intro k hk
          rw [h3 k hk, alGet?_alSet_ne _ _ _ _ (Ne.symm hk)]

theorem setHydroCoeff_diameter (e : HydroEntry) (i : Nat) (v : ℚ) (e2 : HydroEntry)
    (h : setHydroCoeff e i v = some e2) : e2.diameter = e.diameter := by
  rcases i with _ | _ | _ | _ | _ | _ | i
  · simp only [setHydroCoeff, Option.some_inj] at h; subst h; rfl
  · simp only [setHydroCoeff, Option.some_inj] at h; subst h; rfl
  · simp only [setHydroCoeff, Option.some_inj] at h; subst h; rfl
  · simp only [setHydroCoeff, Option.some_inj] at h; subst h; rfl
  · simp only [setHydroCoeff, Option.some_inj] at h; subst h; rfl
  · simp only [setHydroCoeff, Option.some_inj] at h; subst h; rfl
  · exact Option.noConfusion h

theorem setHydroCoeffs_diameter (cs : List String) : ∀ (e : HydroEntry) (i : Nat) (e2 : HydroEntry),
    setHydroCoeffs e cs i = some e2 → e2.diameter = e.diameter := by
  induction cs with
  | nil =>
    intro e i e2 h
    rw [setHydroCoeffs, Option.some_inj] at h
    subst h
    rfl
  | cons c cs ih =>
    intro e i e2 h
    rw [setHydroCoeffs] at h
    split at h
    · exact Option.noConfusion h
    · rename_i v hv
      split at h
      · exact Option.noConfusion h
      · rename_i e3 he3
        rw [ih e3 (i + 1) e2 h, setHydroCoeff_diameter e i v e3 he3]

/-- Invariant for the DIAMETER carry-forward proof: the running diameter
is `d`, and every entry of `hydro_sets` either carries diameter `d` or was
already present in the reference dict `sets0`. -/
def HydroDiamInv (d : String) (sets0 : List (HydroKey × HydroEntry)) (st : HydroState) : Prop :=
  st.diameter = some d ∧
  ∀ k e, alGet? st.sets k = some e → e.diameter = some d ∨ ¬ alGet? sets0 k = Option.none

theorem hydroStep_inv (d : String) (sets0 : List (HydroKey × HydroEntry))
    (st st2 : HydroState) (s : String)
    (hs : strContains "SET=" s = true ∨ strContains "DIAMETER=" s = false)
    (hinv : HydroDiamInv d sets0 st) (h : hydroStep st s = some st2) :
    HydroDiamInv d sets0 st2 := by
  obtain ⟨hd, hent⟩ := hinv
  simp only [hydroStep] at h
  by_cases h1 : strContains "SET=" s = true
  · rw [if_pos h1] at h
    split at h
    · exact Option.noConfusion h
    · rename_i t ht
      split at h
      · rw [Option.some_inj] at h
        subst h
        refine ⟨hd, ?_⟩
        intro k e hk
        by_cases hkk : k = HydroKey.plain (pyTrim ((pySplit (pyReplace s "SET=" "") ",").getD 0 ""))
        · subst hkk
          rw [alGet?_alSet_self, Option.some_inj] at hk
          subst hk
          left
          exact hd
        · rw [alGet?_alSet_ne _ _ _ _ (Ne.symm hkk)] at hk
          exact hent _ _ hk
      · rw [Option.some_inj] at h
        subst h
        exact ⟨hd, hent⟩
  · rw [if_neg h1] at h
    have h2 : strContains "DIAMETER=" s = false := hs.resolve_left h1
    rw [h2] at h
    simp only [Bool.false_eq_true, if_false] at h
    by_cases h3 : strContains "OPTION=" s = true
    · rw [if_pos h3, Option.some_inj] at h
      subst h
      exact ⟨hd, hent⟩
    · rw [if_neg h3] at h
      by_cases h4 : st.htype = some "constant"
      · rw [if_pos h4] at h
        split at h
        · exact Option.noConfusion h
        · rename_i name hname
          split at h
          · exact Option.noConfusion h
          · rename_i e helem
            split at h
            · exact Option.noConfusion h
            · rename_i e2 hco
              rw [Option.some_inj] at h
              subst h
              refine ⟨hd, ?_⟩
              intro k e4 hk
              by_cases hkk : k = HydroKey.plain name
              · subst hkk
                rw [alGet?_alSet_self, Option.some_inj] at hk
                subst hk
                have hdia := setHydroCoeffs_diameter _ _ _ _ hco
                rcases hent _ _ helem with hl | hr
                · left
                  rw [hdia]
                  exact hl
                · right
                  exact hr
              · rw [alGet?_alSet_ne _ _ _ _ (Ne.symm hkk)] at hk
                exact hent _ _ hk
      · rw [if_neg h4] at h
        split at h
        · exact Option.noConfusion h
        · rename_i rey hrey
          split at h
          · exact Option.noConfusion h
          · rename_i name hname
            split at h
            · exact Option.noConfusion h
            · rename_i e2 hco
              rw [Option.some_inj] at h
              subst h
              refine ⟨hd, ?_⟩
              intro k e4 hk
              by_cases hkk : k = HydroKey.reynolds name rey
              · subst hkk
                rw [alGet?_alSet_self, Option.some_inj] at hk
                subst hk
                left
                rw [setHydroCoeffs_diameter _ _ _ _ hco]
                exact hd
              · rw [alGet?_alSet_ne _ _ _ _ (Ne.symm hkk)] at hk
                exact hent _ _ hk

theorem hydroRun_inv (d : String) (sets0 : List (HydroKey × HydroEntry)) (rows : List String) :
    ∀ st st2 : HydroState, HydroDiamInv d sets0 st →
    (∀ r ∈ rows, strContains "SET=" r = true ∨ strContains "DIAMETER=" r = false) →
    hydroRun st rows = some st2 → HydroDiamInv d sets0 st2 := by
  induction rows with
  | nil =>
    intro st st2 hinv _ h
    rw [hydroRun, Option.some_inj] at h
    subst h
    exact hinv
  | cons r rows ih =>
    intro st st2 hinv hrows h
    rw [hydroRun] at h
    split at h
    · simp at h
    · rename_i st1 heq
      exact ih st1 st2
        (hydroStep_inv d sets0 st st1 r (hrows r (List.mem_cons_self r rows)) hinv heq)
        (fun x hx => hrows x (List.mem_cons_of_mem r hx)) h

/-- C5: carry-forward of `KEY=value` lines.  First conjunct (`SET=` in
`*ELEMENT SETS`): after a `SET=name` line, every following row without a
`SET=` prefix is attributed to `name` — the set holds exactly the
concatenation of those rows' elements (a repeated `SET=name` resets the
entry, so the last-seen key line governs all subsequent rows), and no
other set is touched.  Second conjunct (`DIAMETER=` in
`*HYDRODYNAMIC SETS`): after a `DIAMETER=d` line with no later
`DIAMETER=` line among the rows, the running diameter is `d` and every
hydro-set entry created by those rows carries diameter `d`. -/
theorem claim_C5_carry_forward :
    (∀ (cur : String) (sets : List (String × List ℤ)) (setLine : String) (rows : List String)
       (st2 : String × List (String × List ℤ)),
      setLine.take 4 = "SET=" → pyTrim (setLine.drop 4) ≠ "" →
      (∀ r ∈ rows, r.take 4 ≠ "SET=") →
      esRun (cur, sets) (setLine :: rows) = some st2 →
      ∃ xss, optMapM esParseRow rows = some xss ∧
        st2.1 = pyTrim (setLine.drop 4) ∧
        alGet? st2.2 (pyTrim (setLine.drop 4)) = some xss.flatten ∧
        ∀ k, k ≠ pyTrim (setLine.drop 4) → alGet? st2.2 k = alGet? sets k) ∧
    (∀ (st : HydroState) (dline : String) (rows : List String) (st2 : HydroState),
      strContains "SET=" dline = false → strContains "DIAMETER=" dline = true →
      (∀ r ∈ rows, strContains "SET=" r = true ∨ strContains "DIAMETER=" r = false) →
      hydroRun st (dline :: rows) = some st2 →
      st2.diameter = some (pyTrim ((pySplit dline "DIAMETER=").getD 1 "")) ∧
      ∀ k e, alGet? st.sets k = Option.none → alGet? st2.sets k = some e →
        e.diameter = some (pyTrim ((pySplit dline "DIAMETER=").getD 1 ""))) := by
  constructor
  · intro cur sets setLine rows st2 hset hname hrows h
    rw [esRun] at h
    split at h
    · simp at h
    · rename_i st1 heq
      rw [esStep, if_pos hset, Option.some_inj] at heq
      subst heq
      obtain ⟨xss, hxss, h1, h2, h3⟩ :=
        esRun_rows rows (pyTrim (setLine.drop 4))
          (alSet sets (pyTrim (setLine.drop 4)) ([] : List ℤ)) [] st2 hname
          (alGet?_alSet_self _ _ _) hrows h
      refine ⟨xss, hxss, h1, by simpa using h2, ?_⟩
      intro k hk
      rw [h3 k hk, alGet?_alSet_ne _ _ _ _ (Ne.symm hk)]
  · intro st dline rows st2 hset hdia hrows h
    rw [hydroRun] at h
    split at h
    · simp at h
    · rename_i st1 heq
      simp only [hydroStep, hset, Bool.false_eq_true, if_false, hdia, if_true,
        Option.some_inj] at heq
      subst heq
      have hinv : HydroDiamInv (pyTrim ((pySplit dline "DIAMETER=").getD 1 "")) st.sets
          { st with diameter := some (pyTrim ((pySplit dline "DIAMETER=").getD 1 "")) } := by
        refine ⟨rfl, ?_⟩
        intro k e hk
        right
        simp [hk]
      obtain ⟨hd2, hent2⟩ :=
        hydroRun_inv (pyTrim ((pySplit dline "DIAMETER=").getD 1 "")) st.sets rows _ st2
          hinv hrows h
      refine ⟨hd2, ?_⟩
      intro k e hnone hk
      rcases hent2 k e hk with hl | hr
      · exact hl
      · exact absurd hnone hr

/-- The hydro-set entry created in the C5 witness run. -/
def hydroC5Entry : HydroEntry :=
  ⟨some "constant", some "21.0", Option.none, some (mkRat 6 5), some 1, some 1, some 1,
    some 1, some 0⟩

/-- The hydro state reached in the C5 witness run. -/
def hydroC5St : HydroState :=
  ⟨Option.none, some "21.0", some "constant", some "Pup Joint",
    [(HydroKey.plain "Pup Joint", hydroC5Entry)]⟩

/-- Witness for C5 at concrete inputs: the rows after `SET=Riser` all land
in set `"Riser"`, and the entry created after `DIAMETER=21.0` carries
diameter `"21.0"`. -/
theorem claim_C5_witness :
    alGet? ([("Riser", [(1 : ℤ), 2, 5, 6, 7])]) "Riser" = some [(1 : ℤ), 2, 5, 6, 7] ∧
    hydroC5Entry.diameter = some "21.0" := by
  constructor
  · obtain ⟨xss, hx, h1, h2, h3⟩ :=
      claim_C5_carry_forward.1 "" [] "SET=Riser" ["1,2", "GEN=5,7"]
        ("Riser", [("Riser", [(1 : ℤ), 2, 5, 6, 7])]) (by decide) (by decide) (by decide)
        (by decide)
    have hxv : xss = [[(1 : ℤ), 2], [5, 6, 7]] := by
      have he : optMapM esParseRow ["1,2", "GEN=5,7"] = some [[(1 : ℤ), 2], [5, 6, 7]] := by
        decide
      rw [he, Option.some_inj] at hx
      exact hx.symm
    subst hxv
    have hn : pyTrim (("SET=Riser" : String).drop 4) = "Riser" := by decide
    rw [hn] at h2
    simpa using h2
  · obtain ⟨hd, hent⟩ :=
      claim_C5_carry_forward.2 ⟨Option.none, Option.none, Option.none, Option.none, []⟩
        "DIAMETER=21.0" ["SET=Pup Joint, TYPE=CONSTANT", "1.2,1.0,1.0,1.0,1.0,0.0"] hydroC5St
        (by decide) (by decide) (by decide) (by decide)
    have he := hent (HydroKey.plain "Pup Joint") hydroC5Entry (by decide) (by decide)
    have hn : pyTrim ((pySplit "DIAMETER=21.0" "DIAMETER=").getD 1 "") = "21.0" := by decide
    rw [hn] at he
    exact he

/-! ## shear7_file_reader.py — `Shear7File.parse_file` and `process_block3` -/

/-- The section name computed by `parse_file` for a line containing
`***`: `line.split(".")[0].split("***")[1].strip()` (`none` models the
`IndexError` when the part before the first `.` has no `***`). -/
def s7SectionName (line : String) : Option String :=
  match (pySplit ((pySplit line ".").getD 0 "") "***").get? 1 with
  | Option.none => Option.none
  | some nm => some (pyTrim nm)

/-- One iteration of the loop in `Shear7File.parse_file`: any line
containing `***` starts (or resets) a section; every other line is
appended to the current section. -/
def s7Step (st : String × List (String × List String)) (line : String) :
    Option (String × List (String × List String)) :=
  if strContains "***" line then
    match s7SectionName line with
    | Option.none => Option.none
    | some nm => some (nm, alSet st.2 nm ([] : List String))
  else
    match alAppend st.2 st.1 line with
    | Option.none => Option.none
    | some d2 => some (st.1, d2)

/-- The loop of `parse_file` over the file lines. -/
def s7Run : String × List (String × List String) → List String →
    Option (String × List (String × List String))
  | st, [] => some st
  | st, l :: ls =>
    match s7Step st l with
    | Option.none => Option.none
    | some st2 => s7Run st2 ls

/-- `Shear7File.parse_file`, starting from `self.data = {"headers": []}`
and `section = "headers"`. -/
def s7Parse (lines : List String) : Option (String × List (String × List String)) :=
  s7Run ("headers", [("headers", [])]) lines

/-- The row loop of `process_block3`: reads `self.data["BLOCK 3"][i]` for
`i = 1 .. N` and parses `float(line.split(",")[0])` and
`float(line.split(",")[1].split()[0])` (`none` models `IndexError` /
`ValueError`). -/
def b3Rows (b3 : List String) : Nat → Nat → Option (List (ℚ × ℚ))
  | 0, _ => some []
  | k + 1, i =>
    match b3.get? i with
    | Option.none => Option.none
    | some l =>
      match pyFloat? ((pySplit l ",").getD 0 "") with
      | Option.none => Option.none
      | some depth =>
        match (pySplit l ",").get? 1 with
        | Option.none => Option.none
        | some p1 =>
          match (pySplitWs p1).get? 0 with
          | Option.none => Option.none
          | some w =>
            match pyFloat? w with
            | Option.none => Option.none
            | some speed =>
              match b3Rows b3 k (i + 1) with
              | Option.none => Option.none
              | some rest => some ((depth, speed) :: rest)

/-- `Shear7File.process_block3` (the `number_current_points` and
`current_profile` extraction; the derived `current_text` and max/min/mean
summaries are not modelled as no claim concerns them).  When no
`BLOCK 3` section exists, the fields keep their `setup_variables`
defaults (`None` and `[]`). -/
def processBlock3 (data : List (String × List String)) : Option (Option ℤ × List (ℚ × ℚ)) :=
  match alGet? data "BLOCK 3" with
  | Option.none => some (Option.none, [])
  | some b3 =>
    match b3.get? 0 with
    | Option.none => Option.none
    | some l0 =>
      match (pySplitWs l0).get? 0 with
      | Option.none => Option.none
      | some w0 =>
        match pyInt? ((pySplit w0 ",").getD 0 "") with
        | Option.none => Option.none
        | some n =>
          match b3Rows b3 n.toNat 1 with
          | Option.none => Option.none
          | some profile => some (some n, profile)

/-- A shear7 input whose BLOCK 3 declares 2 current points but whose
second row contains `***`. -/
def s7Ex : List String :=
  ["*** BLOCK 3 ***", "2", "0.0, 1.0", "*** SURPRISE ***", "1.0, 2.0"]

/-- The section dict `parse_file` builds for `s7Ex`. -/
def s7ExData : List (String × List String) :=
  [("headers", []), ("BLOCK 3", ["2", "0.0, 1.0"]), ("SURPRISE", ["1.0, 2.0"])]

/-- C4 counterexample: with a declared count of 2, the second row
`*** SURPRISE ***` is **not** consumed as table data — the tokenizer opens
a new section for it, BLOCK 3 is left with a single data row, and
`process_block3` then aborts with an `IndexError` instead of producing the
two-row profile the claim promises. -/
theorem claim_C4_counterexample :
    (s7Parse s7Ex).map Prod.snd = some s7ExData ∧
    alGet? s7ExData "BLOCK 3" = some ["2", "0.0, 1.0"] ∧
    alGet? s7ExData "SURPRISE" = some ["1.0, 2.0"] ∧
    processBlock3 s7ExData = Option.none := by
  refine ⟨by decide, by decide, by decide, by decide⟩

/-- C4 amended: sectioning in the shear7 reader is content-driven, not
count-driven — on any line containing `***` the tokenizer always starts a
new section (or fails on a malformed marker) and never appends the line to
the open section, even within a declared fixed-row-count table; the
declared count is honoured only when none of the `N` rows contains `***`. -/
theorem claim_C4_amended_marker_precedence :
    ∀ (sec : String) (data : List (String × List String)) (line : String),
      strContains "***" line = true →
      s7Step (sec, data) line =
        (s7SectionName line).map (fun nm => (nm, alSet data nm ([] : List String))) := by
  intro sec data line h
  rw [s7Step, if_pos h]
  cases s7SectionName line <;> simp

/-- Witness for the amended C4 at a concrete marker-like row. -/
theorem claim_C4_amended_witness :
    s7Step ("headers", ([] : List (String × List String))) "*** SURPRISE ***" =
      some ("SURPRISE", [("SURPRISE", [])]) := by
  rw [claim_C4_amended_marker_precedence "headers" [] "*** SURPRISE ***" (by decide)]
  decide

/-! ## tab_file_reader.py — `TabFile.parse_contents` and `offset_elevations` -/

/-- One series dict `{'X': [], 'Y': [], 'X Label': ..., 'Y Label': ...,
'X Units': ..., 'Y Units': ...}`. -/
structure TabSeries where
  xs : List ℚ
  ys : List ℚ
  xLabel : String
  yLabel : String
  xUnits : String
  yUnits : String
deriving DecidableEq

/-- Loop state of `TabFile.parse_contents`: the accumulated
`tab_file_data`, the current table key (`None` before the first
`Table No.` line), the per-table series counter and axis labels/units, and
the current series name (`none` models the `series` variable being unbound
— a `NameError`, which the data-append `try` swallows). -/
structure TabState where
  tabData : List (String × List (String × TabSeries))
  table : Option String
  seriesCount : Nat
  xLabel : String
  yLabel : String
  xUnits : String
  yUnits : String
  curSeries : Option String
deriving DecidableEq

/-- State on entry to `parse_contents`. -/
def tabInit : TabState := ⟨[], Option.none, 0, "", "", "", "", Option.none⟩

/-- The `try: ... except: pass` block at the end of the loop body: split
the line on tabs, append `float(line[0])` to the current series' X list,
then append `float(line[1])` to its Y list; any failure (unbound series,
missing key, missing second field, non-float token) silently stops —
after a successful X append a failing Y step leaves the X value behind,
exactly as the source's two sequential `append` statements do. -/
def tryAppend (st : TabState) (tbl line : String) : TabState :=
  match st.curSeries with
  | Option.none => st
  | some sname =>
    match alGet? st.tabData tbl with
    | Option.none => st
    | some inner =>
      match alGet? inner sname with
      | Option.none => st
      | some ser =>
        match pyFloat? ((pySplit line "\t").getD 0 "") with
        | Option.none => st
        | some x =>
          match (pySplit line "\t").get? 1 with
          | Option.none =>
            { st with tabData := alSet st.tabData tbl (alSet inner sname { ser with xs := ser.xs ++ [x] }) }
          | some t1 =>
            match pyFloat? t1 with
            | Option.none =>
              { st with tabData := alSet st.tabData tbl (alSet inner sname { ser with xs := ser.xs ++ [x] }) }
            | some y =>
              { st with tabData := alSet st.tabData tbl (alSet inner sname { ser with xs := ser.xs ++ [x], ys := ser.ys ++ [y] }) }

/-- One iteration of the loop in `TabFile.parse_contents`. -/
def tabStep (st : TabState) (line : String) : Option TabState :=
  if strContains "Table No." line then
    some { st with
            table := some line
            tabData := alSet st.tabData line ([] : List (String × TabSeries))
            seriesCount := 0
            xLabel := ""
            yLabel := ""
            xUnits := ""
            yUnits := "" }
  else
    match st.table with
    | Option.none => some st
    | some tbl =>
      let st1 := if line.take 7 = "X-Axis:"
                 then { st with xLabel := pyTrim ((pySplit line ":").getD 1 "") } else st
      let st2 := if line.take 7 = "Y-Axis:"
                 then { st1 with yLabel := pyTrim ((pySplit line ":").getD 1 "") } else st1
      let st3 := if line.take 8 = "X-Units:"
                 then (if pyTrim ((pySplit line ":").getD 1 "") ≠ "" then
                        { st2 with
                            xUnits := pyTrim ((pySplit line ":").getD 1 "")
                            xLabel := st2.xLabel ++ " (" ++ pyTrim ((pySplit line ":").getD 1 "") ++ ")" }
                       else { st2 with xUnits := pyTrim ((pySplit line ":").getD 1 "") })
                 else st2
      let st4 := if line.take 8 = "Y-Units:"
                 then (if pyTrim ((pySplit line ":").getD 1 "") ≠ "" then
                        { st3 with
                            yUnits := pyTrim ((pySplit line ":").getD 1 "")
                            yLabel := st3.yLabel ++ " (" ++ pyTrim ((pySplit line ":").getD 1 "") ++ ")" }
                       else { st3 with yUnits := pyTrim ((pySplit line ":").getD 1 "") })
                 else st3
      if line.take 10 = "Plot Data:" then
        match alGet? st4.tabData tbl with
        | Option.none => Option.none
        | some inner =>
          if pyTrim ((pySplit line ":").getD 1 "") = "" ∨
             (alGet? inner (pyTrim ((pySplit line ":").getD 1 ""))).isSome = true then
            some (tryAppend { st4 with
                    tabData := alSet st4.tabData tbl
                      (alSet inner ("Series " ++ toString (st4.seriesCount + 1))
                        ⟨[], [], st4.xLabel, st4.yLabel, st4.xUnits, st4.yUnits⟩)
                    seriesCount := st4.seriesCount + 1
                    curSeries := some ("Series " ++ toString (st4.seriesCount + 1)) } tbl line)
          else
            some (tryAppend { st4 with
                    tabData := alSet st4.tabData tbl
                      (alSet inner (pyTrim ((pySplit line ":").getD 1 ""))
                        ⟨[], [], st4.xLabel, st4.yLabel, st4.xUnits, st4.yUnits⟩)
                    curSeries := some (pyTrim ((pySplit line ":").getD 1 "")) } tbl line)
      else
        some (tryAppend st4 tbl line)

/-- The loop of `parse_contents` over the file lines. -/
def tabRun : TabState → List String → Option TabState
  | st, [] => some st
  | st, l :: ls =>
    match tabStep st l with
    | Option.none => Option.none
    | some st2 => tabRun st2 ls

/-- `TabFile.parse_contents` over the whole file. -/
def parseTab (lines : List String) : Option TabState :=
  tabRun tabInit lines

/-- `TabFile.offset_elevations`: adds `offset` to every value of the given
axis of every series of the table, updating `tab_file_data` itself.
`none` models the `KeyError` on a missing table, and the
`KeyError`/`TypeError` raised on a nonempty table when `axis` is not one
of `'X'`/`'Y'` (with an empty table the loop body never runs, so any axis
is accepted). -/
def offsetElevations (d : List (String × List (String × TabSeries)))
    (table : String) (offset : ℚ) (axis : String) :
    Option (List (String × List (String × TabSeries))) :=
  match alGet? d table with
  | Option.none => Option.none
  | some inner =>
    if axis = "X" then
      some (alSet d table (inner.map (fun p =>
        (p.1, { p.2 with xs := p.2.xs.map (fun v => qAdd v offset) }))))
    else if axis = "Y" then
      some (alSet d table (inner.map (fun p =>
        (p.1, { p.2 with ys := p.2.ys.map (fun v => qAdd v offset) }))))
    else if inner.isEmpty then some d
    else Option.none

/-- The record parsed from a one-table, one-series tab file, before
`offset_elevations`. -/
def tabC6Data : List (String × List (String × TabSeries)) :=
  [("Table No. 1 - Envelope of Von Mises Stress", [("S", ⟨[1, 2], [3, 4], "", "", "", ""⟩)])]

/-- The same record after `offset_elevations(table, 5, axis='Y')`. -/
def tabC6After : List (String × List (String × TabSeries)) :=
  [("Table No. 1 - Envelope of Von Mises Stress", [("S", ⟨[1, 2], [8, 9], "", "", "", ""⟩)])]

/-- C6 counterexample: `offset_elevations` does not leave the parsed
record unchanged and produce a separate derived value — the reader's
`tab_file_data` after the call differs from the parsed original. -/
theorem claim_C6_counterexample :
    offsetElevations tabC6Data "Table No. 1 - Envelope of Von Mises Stress" 5 "Y" =
      some tabC6After ∧
    ¬ tabC6After = tabC6Data := by
  refine ⟨by decide, by decide⟩

/-- C6 amended: `offset_elevations` mutates the stored record in place —
afterwards the table's every series has `offset` added to each value of
the chosen axis (the original values are not retained anywhere), while
other tables are untouched. -/
theorem claim_C6_amended_offset_mutates :
    ∀ (d : List (String × List (String × TabSeries))) (t : String) (o : ℚ)
      (inner : List (String × TabSeries)) (d2 : List (String × List (String × TabSeries))),
      alGet? d t = some inner →
      offsetElevations d t o "Y" = some d2 →
      alGet? d2 t =
        some (inner.map (fun p => (p.1, { p.2 with ys := p.2.ys.map (fun v => v + o) }))) ∧
      ∀ k, k ≠ t → alGet? d2 k = alGet? d k := by
  intro d t o inner d2 hin h
  simp only [offsetElevations, hin, eq_false (by decide : ¬ ("Y" : String) = "X"), if_false,
    eq_self_iff_true, if_true, Option.some_inj] at h
  subst h
  constructor
  · rw [alGet?_alSet_self]
    simp only [qAdd_eq_add]
  · intro k hk
    rw [alGet?_alSet_ne _ _ _ _ (Ne.symm hk)]

/-- Witness for the amended C6 at the concrete record `tabC6Data`. -/
theorem claim_C6_amended_witness :
    alGet? tabC6After "Table No. 1 - Envelope of Von Mises Stress" =
      some [("S", (⟨[1, 2], [(3 : ℚ) + 5, (4 : ℚ) + 5], "", "", "", ""⟩ : TabSeries))] := by
  have h := claim_C6_amended_offset_mutates tabC6Data
    "Table No. 1 - Envelope of Von Mises Stress" 5
    [("S", ⟨[1, 2], [3, 4], "", "", "", ""⟩)] tabC6After (by decide) (by decide)
  exact h.1

theorem tryAppend_skip (st : TabState) (tbl line : String)
    (hfl : pyFloat? ((pySplit line "\t").getD 0 "") = Option.none) :
    tryAppend st tbl line = st := by
  rw [tryAppend]
  split
  · rfl
  · split
    · rfl
    · split
      · rfl
      · rw [hfl]

theorem tabRun_cons (st : TabState) (l : String) (ls : List String) (st1 : TabState)
    (h : tabStep st l = some st1) : tabRun st (l :: ls) = tabRun st1 ls := by
  rw [tabRun, h]

theorem tabStep_tableLine (td : List (String × List (String × TabSeries))) (tab : Option String)
    (cnt : Nat) (xl yl xu yu : String) (cs : Option String) (line : String)
    (h : strContains "Table No." line = true) :
    tabStep ⟨td, tab, cnt, xl, yl, xu, yu, cs⟩ line =
      some ⟨alSet td line ([] : List (String × TabSeries)), some line, 0, "", "", "", "", cs⟩ := by
  rw [tabStep, if_pos h]

theorem tabStep_plotEmpty (td : List (String × List (String × TabSeries))) (tbl : String)
    (cnt : Nat) (xl yl xu yu : String) (cs : Option String) (inner : List (String × TabSeries))
    (hin : alGet? td tbl = some inner) :
    tabStep ⟨td, some tbl, cnt, xl, yl, xu, yu, cs⟩ "Plot Data:" =
      some ⟨alSet td tbl (alSet inner ("Series " ++ toString (cnt + 1)) ⟨[], [], xl, yl, xu, yu⟩),
            some tbl, cnt + 1, xl, yl, xu, yu, some ("Series " ++ toString (cnt + 1))⟩ := by
  simp only [tabStep,
    (by decide : strContains "Table No." "Plot Data:" = false), Bool.false_eq_true, if_false,
    eq_false (by decide : ¬ (("Plot Data:" : String).take 7 = "X-Axis:")),
    eq_false (by decide : ¬ (("Plot Data:" : String).take 7 = "Y-Axis:")),
    eq_false (by decide : ¬ (("Plot Data:" : String).take 8 = "X-Units:")),
    eq_false (by decide : ¬ (("Plot Data:" : String).take 8 = "Y-Units:")),
    eq_true (by decide : (("Plot Data:" : String).take 10 = "Plot Data:")),
    (by decide : pyTrim ((pySplit "Plot Data:" ":").getD 1 "") = ""),
    eq_self_iff_true, true_or, if_true, hin,
    tryAppend_skip _ _ _ (by decide : pyFloat? ((pySplit "Plot Data:" "\t").getD 0 "") = Option.none)]

theorem tabStep_plotA_new (td : List (String × List (String × TabSeries))) (tbl : String)
    (cnt : Nat) (xl yl xu yu : String) (cs : Option String) (inner : List (String × TabSeries))
    (hin : alGet? td tbl = some inner) (habs : alGet? inner "A" = Option.none) :
    tabStep ⟨td, some tbl, cnt, xl, yl, xu, yu, cs⟩ "Plot Data:A" =
      some ⟨alSet td tbl (alSet inner "A" ⟨[], [], xl, yl, xu, yu⟩),
            some tbl, cnt, xl, yl, xu, yu, some "A"⟩ := by
  simp only [tabStep,
    (by decide : strContains "Table No." "Plot Data:A" = false), Bool.false_eq_true, if_false,
    eq_false (by decide : ¬ (("Plot Data:A" : String).take 7 = "X-Axis:")),
    eq_false (by decide : ¬ (("Plot Data:A" : String).take 7 = "Y-Axis:")),
    eq_false (by decide : ¬ (("Plot Data:A" : String).take 8 = "X-Units:")),
    eq_false (by decide : ¬ (("Plot Data:A" : String).take 8 = "Y-Units:")),
    eq_true (by decide : (("Plot Data:A" : String).take 10 = "Plot Data:")),
    (by decide : pyTrim ((pySplit "Plot Data:A" ":").getD 1 "") = "A"),
    eq_false (by decide : ¬ (("A" : String) = "")), hin, habs, Option.isSome_none,
    or_self, if_false, if_true,
    tryAppend_skip _ _ _ (by decide : pyFloat? ((pySplit "Plot Data:A" "\t").getD 0 "") = Option.none)]

theorem tabStep_plotA_dup (td : List (String × List (String × TabSeries))) (tbl : String)
    (cnt : Nat) (xl yl xu yu : String) (cs : Option String) (inner : List (String × TabSeries))
    (e : TabSeries) (hin : alGet? td tbl = some inner) (hpres : alGet? inner "A" = some e) :
    tabStep ⟨td, some tbl, cnt, xl, yl, xu, yu, cs⟩ "Plot Data:A" =
      some ⟨alSet td tbl (alSet inner ("Series " ++ toString (cnt + 1)) ⟨[], [], xl, yl, xu, yu⟩),
            some tbl, cnt + 1, xl, yl, xu, yu, some ("Series " ++ toString (cnt + 1))⟩ := by
  simp only [tabStep,
    (by decide : strContains "Table No." "Plot Data:A" = false), Bool.false_eq_true, if_false,
    eq_false (by decide : ¬ (("Plot Data:A" : String).take 7 = "X-Axis:")),
    eq_false (by decide : ¬ (("Plot Data:A" : String).take 7 = "Y-Axis:")),
    eq_false (by decide : ¬ (("Plot Data:A" : String).take 8 = "X-Units:")),
    eq_false (by decide : ¬ (("Plot Data:A" : String).take 8 = "Y-Units:")),
    eq_true (by decide : (("Plot Data:A" : String).take 10 = "Plot Data:")),
    (by decide : pyTrim ((pySplit "Plot Data:A" ":").getD 1 "") = "A"),
    hin, hpres, Option.isSome_some, eq_self_iff_true, or_true, if_true,
    tryAppend_skip _ _ _ (by decide : pyFloat? ((pySplit "Plot Data:A" "\t").getD 0 "") = Option.none)]

/-- C7: starting a fresh table (any `Table No.` line) and feeding two
consecutive `Plot Data:` lines with empty titles yields exactly the series
keys `"Series 1"` and `"Series 2"` for that table (the counter having been
reset by the table line); and — second conjunct — a non-empty title that
duplicates an existing series key also fires the auto-increment, `A`
followed by a second `A` giving keys `"A"` and `"Series 1"`. -/
theorem claim_C7_series_auto_increment :
    (∀ (st : TabState) (tline : String) (st3 : TabState),
      strContains "Table No." tline = true →
      tabRun st [tline, "Plot Data:", "Plot Data:"] = some st3 →
      (alGet? st3.tabData tline).map (fun inner => inner.map Prod.fst) =
        some ["Series 1", "Series 2"]) ∧
    (∀ (st : TabState) (tline : String) (st3 : TabState),
      strContains "Table No." tline = true →
      tabRun st [tline, "Plot Data:A", "Plot Data:A"] = some st3 →
      (alGet? st3.tabData tline).map (fun inner => inner.map Prod.fst) =
        some ["A", "Series 1"]) := by
  constructor
  · intro st tline st3 ht h
    obtain ⟨td, tab, cnt, xl, yl, xu, yu, cs⟩ := st
    rw [tabRun_cons _ _ _ _ (tabStep_tableLine td tab cnt xl yl xu yu cs tline ht)] at h
    rw [tabRun_cons _ _ _ _
      (tabStep_plotEmpty _ _ _ _ _ _ _ _ _ (alGet?_alSet_self _ _ _))] at h
    rw [tabRun_cons _ _ _ _
      (tabStep_plotEmpty _ _ _ _ _ _ _ _ _ (alGet?_alSet_self _ _ _))] at h
    rw [tabRun, Option.some_inj] at h
    subst h
    simp only [alGet?_alSet_self, Option.map_some']
    decide
  · intro st tline st3 ht h
    obtain ⟨td, tab, cnt, xl, yl, xu, yu, cs⟩ := st
    rw [tabRun_cons _ _ _ _ (tabStep_tableLine td tab cnt xl yl xu yu cs tline ht)] at h
    rw [tabRun_cons _ _ _ _
      (tabStep_plotA_new _ _ _ _ _ _ _ _ _ (alGet?_alSet_self _ _ _) (by decide))] at h
    rw [tabRun_cons _ _ _ _
      (tabStep_plotA_dup _ _ _ _ _ _ _ _ _ _ (alGet?_alSet_self _ _ _)
        (alGet?_alSet_self _ _ _))] at h
    rw [tabRun, Option.some_inj] at h
    subst h
    simp only [alGet?_alSet_self, Option.map_some']
    decide

/-- An empty series dict, as created for each new `Plot Data:` entry of a
fresh table. -/
def emptyTabSeries : TabSeries := ⟨[], [], "", "", "", ""⟩

/-- The state `parse_contents` reaches on a fresh table followed by two
empty-titled `Plot Data:` lines. -/
def tabC7StA : TabState :=
  ⟨[("Table No. 1 - T", [("Series 1", emptyTabSeries), ("Series 2", emptyTabSeries)])],
    some "Table No. 1 - T", 2, "", "", "", "", some "Series 2"⟩

/-- The state `parse_contents` reaches on a fresh table followed by two
`Plot Data:A` lines. -/
def tabC7StB : TabState :=
  ⟨[("Table No. 1 - T", [("A", emptyTabSeries), ("Series 1", emptyTabSeries)])],
    some "Table No. 1 - T", 1, "", "", "", "", some "Series 1"⟩

/-- Witness for C7 at the concrete inputs. -/
theorem claim_C7_witness :
    (alGet? tabC7StA.tabData "Table No. 1 - T").map (fun inner => inner.map Prod.fst) =
      some ["Series 1", "Series 2"] ∧
    (alGet? tabC7StB.tabData "Table No. 1 - T").map (fun inner => inner.map Prod.fst) =
      some ["A", "Series 1"] :=
  ⟨claim_C7_series_auto_increment.1 tabInit "Table No. 1 - T" tabC7StA (by decide) (by decide),
   claim_C7_series_auto_increment.2 tabInit "Table No. 1 - T" tabC7StB (by decide) (by decide)⟩

/-! ## common_mds_reader.py — `CommonMds.read_mds_file` -/

/-- One mode record: `{"Nat Freq rad_s": ..., "segments": [],
"mode_shape": [], "mode_slope": [], "mode_curvature": []}` (the last two
are initialised but never filled by the reader). -/
structure MdsMode where
  natFreq : ℚ
  segments : List ℚ
  modeShape : List ℚ
  modeSlope : List ℚ
  modeCurvature : List ℚ
deriving DecidableEq

/-- Python's `l[k:]` slice, including the from-the-end meaning of a
negative `k`. -/
def pySliceFrom {α : Type} (k : ℤ) (l : List α) : List α :=
  if 0 ≤ k then l.drop k.toNat else l.drop (l.length - (-k).toNat)

/-- Block 2 of `read_mds_file`: `for i in range(1, 1 + no_of_modes)`,
creating `modes[int(line[0])]` with the natural frequency
`float(line[1])` (`none` models `IndexError`/`ValueError`). -/
def mdsBlock2 (dataLines : List String) : Nat → Nat → List (ℤ × MdsMode) →
    Option (List (ℤ × MdsMode))
  | 0, _, modes => some modes
  | k + 1, i, modes =>
    match dataLines.get? i with
    | Option.none => Option.none
    | some line =>
      match (pySplitWs line).get? 0 with
      | Option.none => Option.none
      | some t0 =>
        match pyInt? t0 with
        | Option.none => Option.none
        | some key =>
          match (pySplitWs line).get? 1 with
          | Option.none => Option.none
          | some t1 =>
            match pyFloat? t1 with
            | Option.none => Option.none
            | some freq =>
              mdsBlock2 dataLines k (i + 1) (alSet modes key ⟨freq, [], [], [], []⟩)

/-- Block 3 of `read_mds_file`: each remaining line appends
`float(line[1])` to the keyed mode's segments and `float(line[2])` to its
mode shape (`none` models `KeyError`/`IndexError`/`ValueError`). -/
def mdsBlock3 (modes : List (ℤ × MdsMode)) : List String → Option (List (ℤ × MdsMode))
  | [] => some modes
  | line :: rest =>
    match (pySplitWs line).get? 0 with
    | Option.none => Option.none
    | some t0 =>
      match pyInt? t0 with
      | Option.none => Option.none
      | some key =>
        match alGet? modes key with
        | Option.none => Option.none
        | some md =>
          match (pySplitWs line).get? 1 with
          | Option.none => Option.none
          | some t1 =>
            match pyFloat? t1 with
            | Option.none => Option.none
            | some seg =>
              match (pySplitWs line).get? 2 with
              | Option.none => Option.none
              | some t2 =>
                match pyFloat? t2 with
                | Option.none => Option.none
                | some shp =>
                  mdsBlock3 (alSet modes key
                    { md with segments := md.segments ++ [seg],
                              modeShape := md.modeShape ++ [shp] }) rest

/-- `CommonMds.read_mds_file` on the line list: returns
`(no_of_modes, no_of_nodes, modes)`. -/
def read_mds_file (dataLines : List String) : Option (ℤ × ℤ × List (ℤ × MdsMode)) :=
  match dataLines.get? 0 with
  | Option.none => Option.none
  | some l0 =>
    match (pySplitWs l0).get? 0 with
    | Option.none => Option.none
    | some t0 =>
      match pyInt? t0 with
      | Option.none => Option.none
      | some m =>
        match (pySplitWs l0).get? 1 with
        | Option.none => Option.none
        | some t1 =>
          match pyInt? t1 with
          | Option.none => Option.none
          | some n =>
            match mdsBlock2 dataLines m.toNat 1 [] with
            | Option.none => Option.none
            | some modes =>
              match mdsBlock3 modes (pySliceFrom (1 + m) dataLines) with
              | Option.none => Option.none
              | some modes2 => some (m, n, modes2)

/-- The modal shape input of the C8 scenario, line by line. -/
def mdsExample : List String := ["2 3", "1 1.5", "2 2.0", "1 0.0 1.0", "1 2.0 0.5", "2 0.0 2.0"]

/-- C8: the six-line modal shape input parses to 2 modes and 3 nodes,
mode 1 has natural frequency `1.5` (= `3/2`) and mode shape
`[1.0, 0.5]` (= `[1, 1/2]`). -/
theorem claim_C8_mds_scenario :
    (read_mds_file mdsExample).map (fun r =>
      (r.1, r.2.1, (alGet? r.2.2 1).map (fun md => (md.natFreq, md.modeShape)))) =
      some (2, 3, some (mkRat 3 2, [1, mkRat 1 2])) ∧
    mkRat 3 2 = (3 : ℚ) / 2 ∧ mkRat 1 2 = (1 : ℚ) / 2 := by
  refine ⟨by decide, ?_, ?_⟩ <;> norm_num [Rat.mkRat_eq_div]

/-! ## output_file_reader.py — the `converged` flag of `read_out_file` -/

/-- The five sentinel checks of `OutputFile.read_out_file`, applied in
source order to one line: the success test (on the lower-cased line)
first, then the four error tests, each overwriting `self.converged`. -/
def convergedStep (solver : String) (c : Option Bool) (line : String) : Option Bool :=
  let c1 := if strContains ("successful " ++ solver ++ " analysis") (pyLower line)
            then some true else c
  let c2 := if strContains "Error: Solution has failed to converge." line then some false else c1
  let c3 := if strContains "Error: The restart file for this analysis does not exist." line
            then some false else c2
  let c4 := if strContains "No database files exist for opening." line then some false else c3
  if strContains "dongle" line then some false else c4

/-- The fold of `convergedStep` over the file lines. -/
def convergedRun (solver : String) : Option Bool → List String → Option Bool
  | c, [] => c
  | c, l :: ls => convergedRun solver (convergedStep solver c l) ls

/-- The `converged` flag after `read_out_file`, starting from the `None`
set in `setup_variables`. -/
def readOutConverged (solver : String) (lines : List String) : Option Bool :=
  convergedRun solver Option.none lines

/-- The verdict one line contributes, stated from the claim's wording:
`false` if one of the four error sentinels occurs in it, otherwise `true`
if the lower-cased line contains `successful <solver> analysis`, otherwise
no verdict. -/
def lineVerdict (solver : String) (line : String) : Option Bool :=
  if strContains "Error: Solution has failed to converge." line
      || strContains "Error: The restart file for this analysis does not exist." line
      || strContains "No database files exist for opening." line
      || strContains "dongle" line then some false
  else if strContains ("successful " ++ solver ++ " analysis") (pyLower line) then some true
  else Option.none

theorem convergedStep_eq (solver : String) (c : Option Bool) (line : String) :
    convergedStep solver c line =
      match lineVerdict solver line with
      | some v => some v
      | Option.none => c := by
  rw [convergedStep, lineVerdict]
  by_cases h1 : strContains "Error: Solution has failed to converge." line = true <;>
    by_cases h2 : strContains "Error: The restart file for this analysis does not exist." line = true <;>
    by_cases h3 : strContains "No database files exist for opening." line = true <;>
    by_cases h4 : strContains "dongle" line = true <;>
    by_cases h5 : strContains ("successful " ++ solver ++ " analysis") (pyLower line) = true <;>
    simp [h1, h2, h3, h4, h5]

theorem getLast?_cons_or {α : Type} (v : α) (t : List α) :
    (v :: t).getLast? =
      match t.getLast? with
      | some w => some w
      | Option.none => some v := by
  cases t with
  | nil => rfl
  | cons a t2 =>
    rw [List.getLast?_cons_cons]
    cases h : (a :: t2).getLast? with
    | none =>
      rw [List.getLast?_eq_none_iff] at h
      exact absurd h (by simp)
    | some w => rfl

theorem convergedRun_getLast (solver : String) (lines : List String) : ∀ c : Option Bool,
    convergedRun solver c lines =
      match (lines.filterMap (lineVerdict solver)).getLast? with
      | some v => some v
      | Option.none => c := by
  induction lines with
  | nil => intro c; rfl
  | cons l ls ih =>
    intro c
    rw [convergedRun, convergedStep_eq, ih]
    cases hv : lineVerdict solver l with
    | none => rw [List.filterMap_cons_none hv]
    | some v =>
      rw [List.filterMap_cons_some hv, getLast?_cons_or]
      cases (ls.filterMap (lineVerdict solver)).getLast? <;> rfl

/-- C9: the `converged` flag is three-valued.  Its final value is the
verdict of the last line carrying any sentinel — `true` from a
`successful <solver> analysis` match (lower-cased), `false` from any of
the four error sentinels, with an error sentinel beating a success match
on the same line — and it stays `None` (not `False`) exactly when no line
of the file matches any sentinel of either kind. -/
theorem claim_C9_converged_three_valued (solver : String) (lines : List String) :
    readOutConverged solver lines = (lines.filterMap (lineVerdict solver)).getLast? ∧
    (readOutConverged solver lines = Option.none ↔
      ∀ l ∈ lines, lineVerdict solver l = Option.none) := by
  have hchar := convergedRun_getLast solver lines Option.none
  have hmain : readOutConverged solver lines = (lines.filterMap (lineVerdict solver)).getLast? := by
    rw [readOutConverged, hchar]
    cases (lines.filterMap (lineVerdict solver)).getLast? <;> rfl
  refine ⟨hmain, ?_⟩
  rw [hmain]
  constructor
  · intro h l hl
    rw [List.getLast?_eq_none_iff] at h
    by_contra hne
    cases hv : lineVerdict solver l with
    | none => exact hne hv
    | some v =>
      have : (v : Bool) ∈ lines.filterMap (lineVerdict solver) :=
        List.mem_filterMap.mpr ⟨l, hl, hv⟩
      rw [h] at this
      simp at this
  · intro h
    rw [List.getLast?_eq_none_iff]
    rw [List.filterMap_eq_nil_iff]
    intro a ha
    exact h a ha

example : readOutConverged "deepriser"
    ["header", " Successful DeepRiser Analysis Completed", "trailer"] = some true := by decide
example : readOutConverged "deepriser"
    [" Successful DeepRiser Analysis", "Error: Solution has failed to converge."] = some false := by
  decide
example : readOutConverged "deepriser" ["nothing to see"] = Option.none := by decide
